import Mathlib

/-!
Verification development for the snapshot restoration service
(`ethcore/src/snapshot/service.rs`).

The service code is embedded shallowly:

* Filesystem state is explicit: a set of directories and an association
  list of files (`FS`), with `rename`, `remove_dir_all`, `create_dir`,
  `create_dir_all` and `read_dir` given executable semantics.  Injected
  I/O faults (an `Env` of oracles) model the error returns of the real
  `std::fs` calls beyond the in-model causes (missing source, existing
  target).
* Collaborators that live outside the embedded sources
  (`StateRebuilder`, `BlockRebuilder`, `LooseReader`, `LooseWriter`,
  snappy decompression) are modelled from the specification as trace
  recorders plus result oracles carried by `Env`.
* `Restoration` and `Service` are translated field by field and
  branch by branch from the source file.
-/

set_option autoImplicit false

namespace Snapshot

/-- 256-bit content hashes are abstracted as naturals. -/
abbrev H256 := Nat

/-- Raw byte strings are abstracted as lists of naturals. -/
abbrev Bytes := List Nat

/-- One path segment.  The directory tree of the service uses a fixed
vocabulary of names plus hash-named chunk files; arbitrary client path
segments are `other n`. -/
inductive Seg where
  | snapshot
  | current
  | restorationSeg
  | dbSeg
  | temp
  | backupDb
  | manifestFile
  | hashSeg (h : H256)
  | other (n : Nat)
  deriving DecidableEq

/-- A filesystem path, root first. -/
abbrev Path := List Seg

/-- Boolean path-order test: `pre p q` holds when `p` leads to `q`,
i.e. `q` lies in the subtree rooted at `p` (inclusive). -/
def pre : Path → Path → Bool
  | [], _ => true
  | _ :: _, [] => false
  | a :: p, b :: q => decide (a = b) && pre p q

theorem pre_iff (p q : Path) : pre p q = true ↔ ∃ t, q = p ++ t := by
  induction p generalizing q with
  | nil => simp [pre]
  | cons a p ih =>
    cases q with
    | nil =>
      simp only [pre, List.cons_append]
      constructor
      · intro h; cases h
      · rintro ⟨t, ht⟩; cases ht
    | cons b q =>
      simp only [pre, Bool.and_eq_true, decide_eq_true_eq, ih, List.cons_append]
      constructor
      · rintro ⟨rfl, t, rfl⟩; exact ⟨t, rfl⟩
      · rintro ⟨t, ht⟩
        injection ht with h1 h2
        exact ⟨h1.symm, t, h2⟩

theorem pre_refl (p : Path) : pre p p = true := by
  rw [pre_iff]; exact ⟨[], by simp⟩

theorem pre_app (p t : Path) : pre p (p ++ t) = true := by
  rw [pre_iff]; exact ⟨t, rfl⟩

theorem pre_trans {p q r : Path} (h1 : pre p q = true) (h2 : pre q r = true) :
    pre p r = true := by
  rw [pre_iff] at *
  obtain ⟨s, rfl⟩ := h1
  obtain ⟨t, rfl⟩ := h2
  exact ⟨s ++ t, by simp⟩

theorem pre_length {p q : Path} (h : pre p q = true) : p.length ≤ q.length := by
  rw [pre_iff] at h
  obtain ⟨t, rfl⟩ := h
  simp

theorem pre_eq_of_length {p q : Path} (h : pre p q = true)
    (hl : q.length ≤ p.length) : p = q := by
  rw [pre_iff] at h
  obtain ⟨t, rfl⟩ := h
  have ht : t = [] := by
    cases t with
    | nil => rfl
    | cons a t =>
      exfalso
      have hlen : (p ++ a :: t).length = p.length + (t.length + 1) := by simp
      omega
  simp [ht]

theorem pre_total {p q r : Path} (h1 : pre p r = true) (h2 : pre q r = true) :
    pre p q = true ∨ pre q p = true := by
  induction r generalizing p q with
  | nil =>
    cases p with
    | nil => left; rfl
    | cons a p => cases h1
  | cons a r ih =>
    cases p with
    | nil => left; rfl
    | cons x p =>
      cases q with
      | nil => right; rfl
      | cons y q =>
        simp only [pre, Bool.and_eq_true, decide_eq_true_eq] at h1 h2 ⊢
        obtain ⟨rfl, h1⟩ := h1
        obtain ⟨rfl, h2⟩ := h2
        rcases ih h1 h2 with h | h
        · exact Or.inl ⟨rfl, h⟩
        · exact Or.inr ⟨rfl, h⟩

theorem pre_app_right_iff (p s t : Path) :
    pre (p ++ s) (p ++ t) = pre s t := by
  induction p with
  | nil => rfl
  | cons a p ih => simp [pre, ih]

/-- Two paths lie in disjoint subtrees. -/
def Incomp (p q : Path) : Prop := ¬ pre p q = true ∧ ¬ pre q p = true

instance instDecidableIncomp (p q : Path) : Decidable (Incomp p q) :=
  inferInstanceAs (Decidable (¬ pre p q = true ∧ ¬ pre q p = true))

theorem Incomp.symm {p q : Path} (h : Incomp p q) : Incomp q p := ⟨h.2, h.1⟩

theorem incomp_ext {p q : Path} (h : Incomp p q) (v : Path) :
    Incomp p (q ++ v) := by
  constructor
  · intro hc
    rcases pre_total hc (pre_app q v) with h1 | h1
    · exact h.1 h1
    · exact h.2 h1
  · intro hc
    exact h.2 (pre_trans (pre_app q v) hc)

theorem incomp_ext2 {p q : Path} (h : Incomp p q) (u v : Path) :
    Incomp (p ++ u) (q ++ v) :=
  (incomp_ext ((incomp_ext h v).symm) u).symm

theorem incomp_single {a b : Seg} (p : Path) (h : a ≠ b) :
    Incomp (p ++ [a]) (p ++ [b]) := by
  constructor
  · rw [pre_app_right_iff]
    simp [pre, h]
  · rw [pre_app_right_iff]
    simp [pre]
    intro hc
    exact h hc.symm

theorem not_pre_of_incomp_prel {p q r : Path} (h : Incomp p q)
    (hq : pre q r = true) (hc : pre p r = true) : False := by
  rcases pre_total hc hq with h1 | h1
  · exact h.1 h1
  · exact h.2 h1

/-- `ManifestData`: the restoration contract (hash lists, expected state
root, highest block number).  Engine-specific header bytes are opaque and
unused by the embedded code, so they are omitted. -/
structure ManifestData where
  state_hashes : List H256
  block_hashes : List H256
  state_root : H256
  block_number : Nat
  deriving DecidableEq

/-- Contents of one file.  The `MANIFEST` serialization is opaque in the
specification, so a manifest file directly carries the decoded value. -/
inductive FileData where
  | manifest (m : ManifestData)
  | raw (b : Bytes)
  deriving DecidableEq

/-- Explicit filesystem state: existing directories and an association
list of files. -/
structure FS where
  dirs : List Path
  files : List (Path × FileData)
  deriving DecidableEq

/-- First file stored at exactly path `p`. -/
def lookupFile : List (Path × FileData) → Path → Option FileData
  | [], _ => none
  | e :: l, p => if e.1 = p then some e.2 else lookupFile l p

def FS.file (fs : FS) (p : Path) : Option FileData :=
  lookupFile fs.files p

/-- A node (directory or file) exists at or below `p`. -/
def FS.existsNode (fs : FS) (p : Path) : Bool :=
  fs.dirs.any (fun d => pre p d) || fs.files.any (fun e => pre p e.1)

def movePath (src dst p : Path) : Path :=
  if pre src p then dst ++ p.drop src.length else p

theorem movePath_app (src dst s : Path) :
    movePath src dst (src ++ s) = dst ++ s := by
  unfold movePath
  rw [if_pos (pre_app src s)]
  congr 1
  simp

theorem movePath_of_not_pre {src p : Path} (dst : Path)
    (h : ¬ pre src p = true) : movePath src dst p = p := by
  unfold movePath
  rw [if_neg h]

/-- Rename: everything under `dst` is discarded, then the subtree under
`src` is transplanted to `dst`. -/
def renameEntries (src dst : Path) : List (Path × FileData) → List (Path × FileData)
  | [] => []
  | e :: l =>
    if pre dst e.1 then renameEntries src dst l
    else (movePath src dst e.1, e.2) :: renameEntries src dst l

def renameDirs (src dst : Path) : List Path → List Path
  | [] => []
  | d :: l =>
    if pre dst d then renameDirs src dst l
    else movePath src dst d :: renameDirs src dst l

def FS.renamePure (fs : FS) (src dst : Path) : FS :=
  { dirs := renameDirs src dst fs.dirs,
    files := renameEntries src dst fs.files }

/-- Remove the whole subtree rooted at `p`. -/
def FS.removeAll (fs : FS) (p : Path) : FS :=
  { dirs := fs.dirs.filter (fun d => ! pre p d),
    files := fs.files.filter (fun e => ! pre p e.1) }

/-- Create or truncate the file at `p`. -/
def FS.write (fs : FS) (p : Path) (d : FileData) : FS :=
  { dirs := fs.dirs,
    files := (p, d) :: fs.files.filter (fun e => ! decide (e.1 = p)) }

/-- Create directory `p` together with all of its ancestors. -/
def FS.mkDirAll (fs : FS) (p : Path) : FS :=
  { dirs := p :: fs.dirs, files := fs.files }

theorem app_cancel {p s t : Path} (h : p ++ s = p ++ t) : s = t := by
  induction p with
  | nil => exact h
  | cons a p ih =>
    injection h with _ h2
    exact ih h2

theorem movePath_eq_iff {src dst : Path} {x s : Path}
    (hx : ¬ pre dst x = true) :
    movePath src dst x = dst ++ s ↔ x = src ++ s := by
  constructor
  · intro h
    by_cases hp : pre src x = true
    · obtain ⟨t, rfl⟩ := (pre_iff src x).mp hp
      rw [movePath_app] at h
      rw [app_cancel h]
    · rw [movePath_of_not_pre dst hp] at h
      exact absurd (h ▸ pre_app dst s) hx
  · rintro rfl
    exact movePath_app src dst s

theorem lookup_rename_moved {src dst : Path} (hi : Incomp src dst) (s : Path) :
    ∀ l : List (Path × FileData),
      lookupFile (renameEntries src dst l) (dst ++ s) = lookupFile l (src ++ s)
  | [] => rfl
  | e :: l => by
    by_cases hd : pre dst e.1 = true
    · rw [renameEntries, if_pos hd]
      have hne : e.1 ≠ src ++ s := fun hc =>
        not_pre_of_incomp_prel hi.symm (pre_app src s) (hc ▸ hd)
      rw [lookupFile, if_neg hne]
      exact lookup_rename_moved hi s l
    · rw [renameEntries, if_neg hd]
      by_cases he : e.1 = src ++ s
      · rw [lookupFile]
        rw [if_pos ((movePath_eq_iff hd).mpr he)]
        rw [lookupFile, if_pos he]
      · rw [lookupFile]
        rw [if_neg (fun hc => he ((movePath_eq_iff hd).mp hc))]
        rw [lookupFile, if_neg he]
        exact lookup_rename_moved hi s l

theorem lookup_rename_other {src dst p : Path}
    (hs : ¬ pre src p = true) (hd : ¬ pre dst p = true) :
    ∀ l : List (Path × FileData),
      lookupFile (renameEntries src dst l) p = lookupFile l p
  | [] => rfl
  | e :: l => by
    by_cases hde : pre dst e.1 = true
    · rw [renameEntries, if_pos hde]
      have hne : e.1 ≠ p := by
        rintro rfl
        exact hd hde
      rw [lookupFile, if_neg hne]
      exact lookup_rename_other hs hd l
    · rw [renameEntries, if_neg hde]
      have hiff : movePath src dst e.1 = p ↔ e.1 = p := by
        constructor
        · intro h
          by_cases hp : pre src e.1 = true
          · obtain ⟨t, ht⟩ := (pre_iff src e.1).mp hp
            rw [ht, movePath_app] at h
            exact absurd (h ▸ pre_app dst t) hd
          · rwa [movePath_of_not_pre dst hp] at h
        · rintro rfl
          exact movePath_of_not_pre dst hs
      by_cases he : e.1 = p
      · rw [lookupFile, if_pos (hiff.mpr he), lookupFile, if_pos he]
      · rw [lookupFile, if_neg (fun hc => he (hiff.mp hc)),
          lookupFile, if_neg he]
        exact lookup_rename_other hs hd l

theorem lookup_filter_not_pre {root p : Path} (h : ¬ pre root p = true) :
    ∀ l : List (Path × FileData),
      lookupFile (l.filter (fun e => ! pre root e.1)) p = lookupFile l p
  | [] => rfl
  | e :: l => by
    by_cases hr : pre root e.1 = true
    · rw [List.filter_cons_of_neg (by simp [hr])]
      have hne : e.1 ≠ p := by
        rintro rfl
        exact h hr
      rw [lookupFile, if_neg hne]
      exact lookup_filter_not_pre h l
    · rw [List.filter_cons_of_pos (by simp [hr])]
      by_cases he : e.1 = p
      · rw [lookupFile, if_pos he, lookupFile, if_pos he]
      · rw [lookupFile, if_neg he, lookupFile, if_neg he]
        exact lookup_filter_not_pre h l

theorem lookup_filter_pre {root p : Path} (h : pre root p = true) :
    ∀ l : List (Path × FileData),
      lookupFile (l.filter (fun e => ! pre root e.1)) p = none
  | [] => rfl
  | e :: l => by
    by_cases hr : pre root e.1 = true
    · rw [List.filter_cons_of_neg (by simp [hr])]
      exact lookup_filter_pre h l
    · rw [List.filter_cons_of_pos (by simp [hr])]
      have hne : e.1 ≠ p := by
        rintro rfl
        exact hr h
      rw [lookupFile, if_neg hne]
      exact lookup_filter_pre h l

theorem lookup_filter_ne {p q : Path} (h : q ≠ p) :
    ∀ l : List (Path × FileData),
      lookupFile (l.filter (fun e => ! decide (e.1 = p))) q = lookupFile l q
  | [] => rfl
  | e :: l => by
    by_cases hp : e.1 = p
    · rw [List.filter_cons_of_neg (by simp [hp])]
      have hne : e.1 ≠ q := by
        rintro rfl
        exact h hp
      rw [lookupFile, if_neg hne]
      exact lookup_filter_ne h l
    · rw [List.filter_cons_of_pos (by simp [hp])]
      by_cases he : e.1 = q
      · rw [lookupFile, if_pos he, lookupFile, if_pos he]
      · rw [lookupFile, if_neg he, lookupFile, if_neg he]
        exact lookup_filter_ne h l

theorem FS.file_rename_moved (fs : FS) {src dst : Path} (hi : Incomp src dst)
    (s : Path) :
    (fs.renamePure src dst).file (dst ++ s) = fs.file (src ++ s) :=
  lookup_rename_moved hi s fs.files

theorem FS.file_rename_other (fs : FS) {src dst p : Path}
    (hs : ¬ pre src p = true) (hd : ¬ pre dst p = true) :
    (fs.renamePure src dst).file p = fs.file p :=
  lookup_rename_other hs hd fs.files

theorem FS.file_removeAll_other (fs : FS) {root p : Path}
    (h : ¬ pre root p = true) :
    (fs.removeAll root).file p = fs.file p :=
  lookup_filter_not_pre h fs.files

theorem FS.file_removeAll_under (fs : FS) {root p : Path}
    (h : pre root p = true) :
    (fs.removeAll root).file p = none :=
  lookup_filter_pre h fs.files

theorem FS.file_write_self (fs : FS) (p : Path) (d : FileData) :
    (fs.write p d).file p = some d := by
  unfold FS.write FS.file
  rw [lookupFile, if_pos rfl]

theorem FS.file_write_other (fs : FS) {p q : Path} (d : FileData)
    (h : q ≠ p) :
    (fs.write p d).file q = fs.file q := by
  unfold FS.write FS.file
  rw [lookupFile, if_neg (fun hc => h hc.symm)]
  exact lookup_filter_ne h fs.files

theorem FS.file_mkDirAll (fs : FS) (p q : Path) :
    (fs.mkDirAll p).file q = fs.file q := rfl

theorem lookup_mem {l : List (Path × FileData)} {p : Path} {d : FileData}
    (h : lookupFile l p = some d) : (p, d) ∈ l := by
  induction l with
  | nil => cases h
  | cons e l ih =>
    rw [lookupFile] at h
    by_cases he : e.1 = p
    · rw [if_pos he] at h
      injection h with h
      subst he
      subst h
      exact List.mem_cons_self _ _
    · rw [if_neg he] at h
      exact List.mem_cons_of_mem _ (ih h)

theorem lookup_isSome_of_mem {l : List (Path × FileData)} {p : Path}
    {d : FileData} (h : (p, d) ∈ l) : ∃ d2, lookupFile l p = some d2 := by
  induction l with
  | nil => cases h
  | cons e l ih =>
    rw [lookupFile]
    by_cases he : e.1 = p
    · exact ⟨e.2, if_pos he⟩
    · rw [if_neg he]
      rcases List.mem_cons.mp h with h1 | h1
      · exact absurd (congrArg Prod.fst h1.symm) he
      · exact ih h1

theorem pre_app_left_false {p d : Path} (s : Path) (h : ¬ pre p d = true) :
    pre (p ++ s) d = false := by
  cases hb : pre (p ++ s) d with
  | false => rfl
  | true => exact absurd (pre_trans (pre_app p s) hb) h

theorem pre_false_of_incomp {p q d : Path} (hi : Incomp p q)
    (hq : pre q d = true) : pre p d = false := by
  cases hb : pre p d with
  | false => rfl
  | true => exact absurd (not_pre_of_incomp_prel hi hq hb) (fun f => f)

theorem any_renameDirs_dst {src dst : Path} (hi : Incomp src dst) (s : Path) :
    ∀ l : List Path,
      (renameDirs src dst l).any (fun d => pre (dst ++ s) d) =
        l.any (fun d => pre (src ++ s) d)
  | [] => rfl
  | d :: l => by
    by_cases hd : pre dst d = true
    · rw [renameDirs, if_pos hd, List.any_cons]
      have h1 : pre (src ++ s) d = false :=
        pre_app_left_false s (fun hc => not_pre_of_incomp_prel hi hd hc)
      rw [h1, Bool.false_or]
      exact any_renameDirs_dst hi s l
    · rw [renameDirs, if_neg hd, List.any_cons, List.any_cons]
      rw [any_renameDirs_dst hi s l]
      congr 1
      by_cases hp : pre src d = true
      · obtain ⟨t, ht⟩ := (pre_iff _ _).mp hp
        rw [ht, movePath_app, pre_app_right_iff, pre_app_right_iff]
      · rw [movePath_of_not_pre dst hp, pre_app_left_false s hd,
          pre_app_left_false s hp]

theorem any_renameEntries_dst {src dst : Path} (hi : Incomp src dst) (s : Path) :
    ∀ l : List (Path × FileData),
      (renameEntries src dst l).any (fun e => pre (dst ++ s) e.1) =
        l.any (fun e => pre (src ++ s) e.1)
  | [] => rfl
  | e :: l => by
    by_cases hd : pre dst e.1 = true
    · rw [renameEntries, if_pos hd, List.any_cons]
      have h1 : pre (src ++ s) e.1 = false :=
        pre_app_left_false s (fun hc => not_pre_of_incomp_prel hi hd hc)
      rw [h1, Bool.false_or]
      exact any_renameEntries_dst hi s l
    · rw [renameEntries, if_neg hd, List.any_cons, List.any_cons]
      rw [any_renameEntries_dst hi s l]
      congr 1
      by_cases hp : pre src e.1 = true
      · obtain ⟨t, ht⟩ := (pre_iff _ _).mp hp
        rw [ht, movePath_app, pre_app_right_iff, pre_app_right_iff]
      · rw [movePath_of_not_pre dst hp, pre_app_left_false s hd,
          pre_app_left_false s hp]

theorem any_renameDirs_incomp {p src dst : Path} (hps : Incomp p src)
    (hpd : Incomp p dst) :
    ∀ l : List Path,
      (renameDirs src dst l).any (fun d => pre p d) =
        l.any (fun d => pre p d)
  | [] => rfl
  | d :: l => by
    by_cases hd : pre dst d = true
    · rw [renameDirs, if_pos hd, List.any_cons, pre_false_of_incomp hpd hd,
        Bool.false_or]
      exact any_renameDirs_incomp hps hpd l
    · rw [renameDirs, if_neg hd, List.any_cons, List.any_cons,
        any_renameDirs_incomp hps hpd l]
      congr 1
      by_cases hp : pre src d = true
      · obtain ⟨t, ht⟩ := (pre_iff _ _).mp hp
        rw [ht, movePath_app, pre_false_of_incomp hpd (pre_app dst t),
          pre_false_of_incomp hps (pre_app src t)]
      · rw [movePath_of_not_pre dst hp]

theorem any_renameEntries_incomp {p src dst : Path} (hps : Incomp p src)
    (hpd : Incomp p dst) :
    ∀ l : List (Path × FileData),
      (renameEntries src dst l).any (fun e => pre p e.1) =
        l.any (fun e => pre p e.1)
  | [] => rfl
  | e :: l => by
    by_cases hd : pre dst e.1 = true
    · rw [renameEntries, if_pos hd, List.any_cons, pre_false_of_incomp hpd hd,
        Bool.false_or]
      exact any_renameEntries_incomp hps hpd l
    · rw [renameEntries, if_neg hd, List.any_cons, List.any_cons,
        any_renameEntries_incomp hps hpd l]
      congr 1
      by_cases hp : pre src e.1 = true
      · obtain ⟨t, ht⟩ := (pre_iff _ _).mp hp
        rw [ht, movePath_app, pre_false_of_incomp hpd (pre_app dst t),
          pre_false_of_incomp hps (pre_app src t)]
      · rw [movePath_of_not_pre dst hp]

theorem any_filterDirs_incomp {p root : Path} (hi : Incomp p root) :
    ∀ l : List Path,
      (l.filter (fun d => ! pre root d)).any (fun d => pre p d) =
        l.any (fun d => pre p d)
  | [] => rfl
  | d :: l => by
    by_cases hr : pre root d = true
    · rw [List.filter_cons_of_neg (by simp [hr]), List.any_cons,
        pre_false_of_incomp hi hr, Bool.false_or]
      exact any_filterDirs_incomp hi l
    · rw [List.filter_cons_of_pos (by simp [hr]), List.any_cons, List.any_cons,
        any_filterDirs_incomp hi l]

theorem any_filterEntries_incomp {p root : Path} (hi : Incomp p root) :
    ∀ l : List (Path × FileData),
      (l.filter (fun e => ! pre root e.1)).any (fun e => pre p e.1) =
        l.any (fun e => pre p e.1)
  | [] => rfl
  | e :: l => by
    by_cases hr : pre root e.1 = true
    · rw [List.filter_cons_of_neg (by simp [hr]), List.any_cons,
        pre_false_of_incomp hi hr, Bool.false_or]
      exact any_filterEntries_incomp hi l
    · rw [List.filter_cons_of_pos (by simp [hr]), List.any_cons, List.any_cons,
        any_filterEntries_incomp hi l]

theorem any_filterDirs_self (p : Path) :
    ∀ l : List Path,
      (l.filter (fun d => ! pre p d)).any (fun d => pre p d) = false
  | [] => rfl
  | d :: l => by
    by_cases hr : pre p d = true
    · rw [List.filter_cons_of_neg (by simp [hr])]
      exact any_filterDirs_self p l
    · rw [List.filter_cons_of_pos (by simp [hr]), List.any_cons,
        any_filterDirs_self p l]
      simp [hr]

theorem any_filterEntries_self (p : Path) :
    ∀ l : List (Path × FileData),
      (l.filter (fun e => ! pre p e.1)).any (fun e => pre p e.1) = false
  | [] => rfl
  | e :: l => by
    by_cases hr : pre p e.1 = true
    · rw [List.filter_cons_of_neg (by simp [hr])]
      exact any_filterEntries_self p l
    · rw [List.filter_cons_of_pos (by simp [hr]), List.any_cons,
        any_filterEntries_self p l]
      simp [hr]

theorem any_entries_filter_ne {p q : Path} (hqp : pre q p = false) :
    ∀ l : List (Path × FileData),
      (l.filter (fun e => ! decide (e.1 = p))).any (fun e => pre q e.1) =
        l.any (fun e => pre q e.1)
  | [] => rfl
  | e :: l => by
    by_cases he : e.1 = p
    · rw [List.filter_cons_of_neg (by simp [he]), List.any_cons, he, hqp,
        Bool.false_or]
      exact any_entries_filter_ne hqp l
    · rw [List.filter_cons_of_pos (by simp [he]), List.any_cons, List.any_cons,
        any_entries_filter_ne hqp l]

theorem FS.existsNode_rename_dst (fs : FS) {src dst : Path}
    (hi : Incomp src dst) (s : Path) :
    (fs.renamePure src dst).existsNode (dst ++ s) = fs.existsNode (src ++ s) := by
  unfold FS.existsNode FS.renamePure
  rw [any_renameDirs_dst hi s fs.dirs, any_renameEntries_dst hi s fs.files]

theorem FS.existsNode_rename_incomp (fs : FS) {p src dst : Path}
    (hps : Incomp p src) (hpd : Incomp p dst) :
    (fs.renamePure src dst).existsNode p = fs.existsNode p := by
  unfold FS.existsNode FS.renamePure
  rw [any_renameDirs_incomp hps hpd fs.dirs,
    any_renameEntries_incomp hps hpd fs.files]

theorem FS.existsNode_removeAll_incomp (fs : FS) {p root : Path}
    (hi : Incomp p root) :
    (fs.removeAll root).existsNode p = fs.existsNode p := by
  unfold FS.existsNode FS.removeAll
  rw [any_filterDirs_incomp hi fs.dirs, any_filterEntries_incomp hi fs.files]

theorem FS.existsNode_removeAll_self (fs : FS) (p : Path) :
    (fs.removeAll p).existsNode p = false := by
  unfold FS.existsNode FS.removeAll
  rw [any_filterDirs_self p fs.dirs, any_filterEntries_self p fs.files]
  rfl

theorem FS.existsNode_write (fs : FS) (p q : Path) (d : FileData) :
    (fs.write p d).existsNode q = (pre q p || fs.existsNode q) := by
  unfold FS.existsNode FS.write
  cases hqp : pre q p with
  | true => simp [List.any_cons, hqp]
  | false =>
    simp only [List.any_cons, hqp, Bool.false_or,
      any_entries_filter_ne hqp fs.files]

theorem FS.existsNode_mkDirAll (fs : FS) (p q : Path) :
    (fs.mkDirAll p).existsNode q = (pre q p || fs.existsNode q) := by
  unfold FS.existsNode FS.mkDirAll
  simp [List.any_cons, Bool.or_assoc]

theorem FS.existsNode_of_file {fs : FS} {p : Path} {d : FileData}
    (h : fs.file p = some d) {q : Path} (hq : pre q p = true) :
    fs.existsNode q = true := by
  unfold FS.existsNode
  simp only [Bool.or_eq_true, List.any_eq_true]
  exact Or.inr ⟨(p, d), lookup_mem h, hq⟩

/-! ### Error model and environment of collaborator oracles -/

/-- `std::io::ErrorKind`, restricted to the kinds the service matches on. -/
inductive IoKind where
  | notFound
  | alreadyExists
  | otherK
  deriving DecidableEq

/-- The error kinds produced along the embedded control paths. -/
inductive Err where
  | io (k : IoKind)
  | simpleString (s : String)
  | invalidStateRoot (root : H256)
  | missingCode
  | corruptChunk
  | badManifest
  | otherErr (n : Nat)
  deriving DecidableEq

/-- Oracles standing in for the collaborators outside the embedded
source: injected filesystem faults, snappy decompression, the rebuilders'
fallible operations, the state-root computation, and the constructors'
failure modes.  Each theorem quantifies over `Env`, so every behaviour of
the real collaborators is covered. -/
structure Env where
  renameFault : Path → Path → Bool
  removeFault : Path → Bool
  createFault : Path → Bool
  writeFault : Path → Bool
  decompressInto : Bytes → Bytes → Except Err (Bytes × Nat)
  stateFeedErr : List Bytes → Bytes → Option Err
  blockFeedErr : List Bytes → Bytes → Option Err
  stateRoot : List Bytes → H256
  checkMissingErr : List Bytes → Option Err
  dbOpenErr : Path → Option Err
  blockRebuilderErr : Nat → Option Err

/-- No injected I/O faults: filesystem calls fail only for in-model
reasons (missing source, existing target). -/
def noFault (env : Env) : Prop :=
  (∀ p q, env.renameFault p q = false) ∧ (∀ p, env.removeFault p = false) ∧
    (∀ p, env.createFault p = false) ∧ (∀ p, env.writeFault p = false)

/-- `fs::rename`. -/
def fsRename (env : Env) (src dst : Path) (fs : FS) : Except Err FS :=
  if env.renameFault src dst then .error (.io .otherK)
  else if fs.existsNode src then .ok (fs.renamePure src dst)
  else .error (.io .notFound)

/-- `fs::remove_dir_all`. -/
def fsRemoveDirAll (env : Env) (p : Path) (fs : FS) : Except Err FS :=
  if env.removeFault p then .error (.io .otherK)
  else if fs.existsNode p then .ok (fs.removeAll p)
  else .error (.io .notFound)

/-- `fs::create_dir_all`. -/
def fsCreateDirAll (env : Env) (p : Path) (fs : FS) : Except Err FS :=
  if env.createFault p then .error (.io .otherK) else .ok (fs.mkDirAll p)

/-- `fs::create_dir`. -/
def fsCreateDir (env : Env) (p : Path) (fs : FS) : Except Err FS :=
  if env.createFault p then .error (.io .otherK)
  else if fs.existsNode p then .error (.io .alreadyExists)
  else if fs.existsNode p.dropLast then .ok { fs with dirs := p :: fs.dirs }
  else .error (.io .notFound)

/-- `remove_dir_all` tolerating `NotFound` (the recurring
`if let Err(e) ... if e.kind() != NotFound` pattern). -/
def tolerantRemove (env : Env) (p : Path) (fs : FS) : Except Err FS :=
  match fsRemoveDirAll env p fs with
  | .ok f => .ok f
  | .error e => if e = .io .notFound then .ok fs else .error e

/-- Best-effort removal (`let _ = fs::remove_dir_all(..)`). -/
def tryRemoveAll (env : Env) (p : Path) (fs : FS) : FS :=
  match fsRemoveDirAll env p fs with
  | .ok f => f
  | .error _ => fs

theorem file_tryRemoveAll_other (env : Env) (p : Path) (fs : FS) {q : Path}
    (h : ¬ pre p q = true) :
    (tryRemoveAll env p fs).file q = fs.file q := by
  unfold tryRemoveAll fsRemoveDirAll
  by_cases hf : env.removeFault p = true
  · rw [if_pos hf]
  · rw [if_neg hf]
    by_cases he : fs.existsNode p = true
    · rw [if_pos he]
      exact fs.file_removeAll_other h
    · rw [if_neg he]

theorem existsNode_tryRemoveAll_incomp (env : Env) (root : Path) (fs : FS)
    {p : Path} (hi : Incomp p root) :
    (tryRemoveAll env root fs).existsNode p = fs.existsNode p := by
  unfold tryRemoveAll fsRemoveDirAll
  by_cases hf : env.removeFault root = true
  · rw [if_pos hf]
  · rw [if_neg hf]
    by_cases he : fs.existsNode root = true
    · rw [if_pos he]
      exact fs.existsNode_removeAll_incomp hi
    · rw [if_neg he]

/-- `fs::read_dir`: the immediate children (files and directories) of `p`,
each listed once. -/
def childOf (p q : Path) : Option Path :=
  if pre p q && decide (p.length < q.length) then some (q.take (p.length + 1))
  else none

def FS.children (fs : FS) (p : Path) : List Path :=
  ((fs.files.map (fun e => e.1) ++ fs.dirs).filterMap (childOf p)).dedup

def fsReadDir (fs : FS) (p : Path) : Except Err (List Path) :=
  if fs.existsNode p then .ok (fs.children p) else .error (.io .notFound)

/-! ### Collaborator models

The rebuilders, the loose reader/writer and the snappy codec live in
parts of the repository outside the embedded source tree; they are
modelled from the specification as trace recorders plus `Env` oracles. -/

/-- Modelled from the spec: `StateRebuilder` (spec §4.3).  It records the
decompressed chunk payloads fed to it, in order; `state_root` and
`check_missing` are `Env` oracles over that trace. -/
structure StateRebuilder where
  fed : List Bytes
  deriving DecidableEq

/-- Modelled from the spec: `BlockRebuilder` (spec §4.4), as a trace
recorder like `StateRebuilder`. -/
structure BlockRebuilder where
  fed : List Bytes
  deriving DecidableEq

/-- Modelled from the spec: `LooseWriter` (spec §4.1) writes each chunk
under its content-hash filename inside its directory, and `finish`
serializes the manifest to `MANIFEST`. -/
structure LooseWriter where
  dir : Path
  deriving DecidableEq

/-- Modelled from the spec: `LooseReader` (spec §4.1) opens a directory
iff `dir/MANIFEST` exists and parses, and serves chunk files by
content-hash filename. -/
structure LooseReader where
  dir : Path
  manifest : ManifestData
  deriving DecidableEq

def LooseWriter.new (env : Env) (fs : FS) (dir : Path) :
    Except Err (LooseWriter × FS) :=
  match fsCreateDirAll env dir fs with
  | .error e => .error e
  | .ok fs2 => .ok ({ dir := dir }, fs2)

def LooseWriter.write_state_chunk (env : Env) (w : LooseWriter) (h : H256)
    (chunk : Bytes) (fs : FS) : Except Err FS :=
  if env.writeFault (w.dir ++ [Seg.hashSeg h]) then .error (.io .otherK)
  else .ok (fs.write (w.dir ++ [Seg.hashSeg h]) (.raw chunk))

def LooseWriter.write_block_chunk (env : Env) (w : LooseWriter) (h : H256)
    (chunk : Bytes) (fs : FS) : Except Err FS :=
  if env.writeFault (w.dir ++ [Seg.hashSeg h]) then .error (.io .otherK)
  else .ok (fs.write (w.dir ++ [Seg.hashSeg h]) (.raw chunk))

def LooseWriter.finish (env : Env) (w : LooseWriter) (m : ManifestData)
    (fs : FS) : Except Err FS :=
  if env.writeFault (w.dir ++ [Seg.manifestFile]) then .error (.io .otherK)
  else .ok (fs.write (w.dir ++ [Seg.manifestFile]) (.manifest m))

def LooseReader.new (fs : FS) (dir : Path) : Except Err LooseReader :=
  match fs.file (dir ++ [Seg.manifestFile]) with
  | some (.manifest m) => .ok { dir := dir, manifest := m }
  | some (.raw _) => .error .badManifest
  | none => .error (.io .notFound)

def LooseReader.chunk (r : LooseReader) (fs : FS) (h : H256) : Option Bytes :=
  match fs.file (r.dir ++ [Seg.hashSeg h]) with
  | some (.raw b) => some b
  | _ => none

/-! ### `Restoration` (embedded from `snapshot/service.rs`) -/

structure Restoration where
  manifest : ManifestData
  state_chunks_left : List H256
  block_chunks_left : List H256
  state : StateRebuilder
  blocks : BlockRebuilder
  writer : LooseWriter
  snappy_buffer : Bytes
  final_state_root : H256
  deriving DecidableEq

structure RestorationParams where
  manifest : ManifestData
  db_path : Path
  writer : LooseWriter

/-- `Restoration::new`: collect the chunk-hash sets, open the staging
database, build the block rebuilder, then assemble the record. -/
def Restoration.make (env : Env) (fs : FS) (params : RestorationParams) :
    FS × Except Err Restoration :=
  let m := params.manifest
  match env.dbOpenErr params.db_path with
  | some e => (fs, .error e)
  | none =>
    let fs1 := fs.mkDirAll params.db_path
    match env.blockRebuilderErr m.block_number with
    | some e => (fs1, .error e)
    | none =>
      (fs1, .ok {
        manifest := m,
        state_chunks_left := m.state_hashes.dedup,
        block_chunks_left := m.block_hashes.dedup,
        state := { fed := [] },
        blocks := { fed := [] },
        writer := params.writer,
        snappy_buffer := [],
        final_state_root := m.state_root })

/-- `Restoration::is_done`. -/
def Restoration.is_done (r : Restoration) : Bool :=
  r.block_chunks_left.isEmpty && r.state_chunks_left.isEmpty

/-- `Restoration::feed_state`, with the partial mutations of the `&mut
self` receiver made explicit on every exit path. -/
def Restoration.feed_state (env : Env) (fs : FS) (r : Restoration)
    (h : H256) (chunk : Bytes) : Restoration × FS × Except Err Unit :=
  if h ∈ r.state_chunks_left then
    let r1 := { r with state_chunks_left := r.state_chunks_left.erase h }
    match env.decompressInto chunk r.snappy_buffer with
    | .error e => (r1, fs, .error e)
    | .ok (buf, len) =>
      let r2 := { r1 with snappy_buffer := buf }
      match env.stateFeedErr r.state.fed (buf.take len) with
      | some e => (r2, fs, .error e)
      | none =>
        let r3 := { r2 with state := { fed := r.state.fed ++ [buf.take len] } }
        match LooseWriter.write_state_chunk env r.writer h chunk fs with
        | .error e => (r3, fs, .error e)
        | .ok fs2 => (r3, fs2, .ok ())
  else (r, fs, .ok ())

/-- `Restoration::feed_blocks` (the engine argument is absorbed by the
`blockFeedErr` oracle). -/
def Restoration.feed_blocks (env : Env) (fs : FS) (r : Restoration)
    (h : H256) (chunk : Bytes) : Restoration × FS × Except Err Unit :=
  if h ∈ r.block_chunks_left then
    let r1 := { r with block_chunks_left := r.block_chunks_left.erase h }
    match env.decompressInto chunk r.snappy_buffer with
    | .error e => (r1, fs, .error e)
    | .ok (buf, len) =>
      let r2 := { r1 with snappy_buffer := buf }
      match env.blockFeedErr r.blocks.fed (buf.take len) with
      | some e => (r2, fs, .error e)
      | none =>
        let r3 := { r2 with blocks := { fed := r.blocks.fed ++ [buf.take len] } }
        match LooseWriter.write_block_chunk env r.writer h chunk fs with
        | .error e => (r3, fs, .error e)
        | .ok fs2 => (r3, fs2, .ok ())
  else (r, fs, .ok ())

/-- The potentially effectful finalize steps, in source order. -/
inductive FinalizeEvent where
  | rootCheck
  | checkMissing
  | glueChunks
  | writerFinish
  deriving DecidableEq

/-- `Restoration::finalize`, with the attempted steps recorded as an
event trace. -/
def Restoration.finalize (env : Env) (fs : FS) (r : Restoration) :
    List FinalizeEvent × FS × Except Err Unit :=
  if ! r.is_done then ([], fs, .ok ())
  else
    let root := env.stateRoot r.state.fed
    if root ≠ r.final_state_root then
      ([.rootCheck], fs, .error (.invalidStateRoot root))
    else
      match env.checkMissingErr r.state.fed with
      | some e => ([.rootCheck, .checkMissing], fs, .error e)
      | none =>
        match LooseWriter.finish env r.writer r.manifest fs with
        | .error e =>
          ([.rootCheck, .checkMissing, .glueChunks, .writerFinish], fs, .error e)
        | .ok fs2 =>
          ([.rootCheck, .checkMissing, .glueChunks, .writerFinish], fs2, .ok ())

/-! ### `Service` (embedded from `snapshot/service.rs`)

The `io_channel`, `pruning`, `engine` and `genesis_block` fields carry no
weight in the embedded control flow (they are only forwarded to the
collaborators, which the `Env` oracles absorb), so they are omitted from
the record. -/

inductive RestorationStatus where
  | Inactive
  | Ongoing
  | Failed
  deriving DecidableEq

structure Service where
  restoration : Option Restoration
  client_db : Path
  db_path : Path
  status : RestorationStatus
  reader : Option LooseReader
  state_chunks : Nat
  block_chunks : Nat
  deriving DecidableEq

def Service.root_dir (svc : Service) : Path := svc.db_path ++ [Seg.snapshot]

def Service.snapshot_dir (svc : Service) : Path :=
  svc.root_dir ++ [Seg.current]

def Service.restoration_dir (svc : Service) : Path :=
  svc.root_dir ++ [Seg.restorationSeg]

def Service.restoration_db (svc : Service) : Path :=
  svc.restoration_dir ++ [Seg.dbSeg]

def Service.temp_recovery_dir (svc : Service) : Path :=
  svc.restoration_dir ++ [Seg.temp]

def Service.backup_db (svc : Service) : Path :=
  svc.restoration_dir ++ [Seg.backupDb]

/-- Second half of `Service::replace_client_db`: the swap rename, with
cleanup on success and rollback on failure. -/
def Service.replaceStep2 (env : Env) (fs : FS) (svc : Service)
    (existed : Bool) : FS × Except Err Unit :=
  match fsRename env svc.restoration_db svc.client_db fs with
  | .ok fs2 =>
    if existed then
      match fsRemoveDirAll env svc.backup_db fs2 with
      | .ok fs3 => (fs3, .ok ())
      | .error e => (fs2, .error e)
    else (fs2, .ok ())
  | .error e =>
    if existed then
      match fsRename env svc.backup_db svc.client_db fs with
      | .ok fs2 => (fs2, .error e)
      | .error e2 => (fs, .error e2)
    else (fs, .error e)

/-- `Service::replace_client_db`. -/
def Service.replace_client_db (env : Env) (fs : FS) (svc : Service) :
    FS × Except Err Unit :=
  let fs0 := tryRemoveAll env svc.backup_db fs
  match fsRename env svc.client_db svc.backup_db fs0 with
  | .ok fs1 => Service.replaceStep2 env fs1 svc true
  | .error e =>
    if e = .io .notFound then Service.replaceStep2 env fs0 svc false
    else (fs0, .error e)

/-- `Service::init_restore`. -/
def Service.init_restore (env : Env) (fs : FS) (svc : Service)
    (m : ManifestData) : Service × FS × Except Err Unit :=
  let rest_dir := svc.restoration_dir
  let svc1 := { svc with restoration := none }
  let cont : FS → Service × FS × Except Err Unit := fun fsA =>
    match fsCreateDirAll env rest_dir fsA with
    | .error e => (svc1, fsA, .error e)
    | .ok fsB =>
      match LooseWriter.new env fsB svc.temp_recovery_dir with
      | .error e => (svc1, fsB, .error e)
      | .ok (w, fsC) =>
        match Restoration.make env fsC
            { manifest := m, db_path := svc.restoration_db, writer := w } with
        | (fsD, .error e) => (svc1, fsD, .error e)
        | (fsD, .ok r) =>
          ({ svc1 with restoration := some r, status := .Ongoing }, fsD, .ok ())
  match fsRemoveDirAll env rest_dir fs with
  | .ok fs2 => cont fs2
  | .error e => if e = .io .notFound then cont fs else (svc1, fs, .error e)

/-- The move loop of `finalize_restoration`: for every entry of
`restoration/temp/`, rename it into the snapshot dir under its basename
(entries without a basename are skipped, as in the source). -/
def moveLoop (env : Env) (snap : Path) : List Path → FS → FS × Except Err Unit
  | [], fs => (fs, .ok ())
  | p :: rest, fs =>
    match p.getLast? with
    | none => moveLoop env snap rest fs
    | some name =>
      match fsRename env p (snap ++ [name]) fs with
      | .error e => (fs, .error e)
      | .ok fs2 => moveLoop env snap rest fs2

/-- `Service::finalize_restoration`. -/
def Service.finalize_restoration (env : Env) (fs : FS) (svc : Service) :
    Service × FS × Except Err Unit :=
  let svc1 := { svc with state_chunks := 0, block_chunks := 0 }
  let r? := svc1.restoration
  let svc2 := { svc1 with restoration := none }
  let fin : FS × Except Err Unit :=
    match r? with
    | some r =>
      let out := Restoration.finalize env fs r
      (out.2.1, out.2.2)
    | none => (fs, .ok ())
  match fin with
  | (fsA, .error e) => (svc2, fsA, .error e)
  | (fsA, .ok _) =>
    match Service.replace_client_db env fsA svc2 with
    | (fsB, .error e) => (svc2, fsB, .error e)
    | (fsB, .ok _) =>
      let svc3 := { svc2 with reader := none }
      let snap := svc3.snapshot_dir
      match tolerantRemove env snap fsB with
      | .error e => (svc3, fsB, .error e)
      | .ok fsC =>
        match fsCreateDir env snap fsC with
        | .error e => (svc3, fsC, .error e)
        | .ok fsD =>
          match fsReadDir fsD svc3.temp_recovery_dir with
          | .error e => (svc3, fsD, .error e)
          | .ok entries =>
            match moveLoop env snap entries fsD with
            | (fsE, .error e) => (svc3, fsE, .error e)
            | (fsE, .ok _) =>
              let fsF := tryRemoveAll env svc3.restoration_dir fsE
              match LooseReader.new fsF snap with
              | .error e => (svc3, fsF, .error e)
              | .ok rd =>
                ({ svc3 with reader := some rd, status := .Inactive },
                  fsF, .ok ())

/-- `Service::feed_chunk`. -/
def Service.feed_chunk (env : Env) (fs : FS) (svc : Service) (h : H256)
    (chunk : Bytes) (is_state : Bool) : Service × FS × Except Err Unit :=
  match svc.status with
  | .Inactive => (svc, fs, .ok ())
  | .Failed => (svc, fs, .ok ())
  | .Ongoing =>
    match svc.restoration with
    | none => (svc, fs, .ok ())
    | some r =>
      let out := if is_state then Restoration.feed_state env fs r h chunk
                 else Restoration.feed_blocks env fs r h chunk
      let r2 := out.1
      let fs2 := out.2.1
      let svc1 := { svc with restoration := some r2 }
      match out.2.2 with
      | .error e => (svc1, fs2, .error e)
      | .ok _ =>
        let svc2 :=
          if is_state then { svc1 with state_chunks := svc1.state_chunks + 1 }
          else { svc1 with block_chunks := svc1.block_chunks + 1 }
        if r2.is_done then Service.finalize_restoration env fs2 svc2
        else (svc2, fs2, .ok ())

/-- `Service::feed_state_chunk`: the asynchronous wrapper that converts a
feed error into `restoration = None`, `status = Failed` and a best-effort
removal of the restoration dir. -/
def Service.feed_state_chunk (env : Env) (fs : FS) (svc : Service)
    (h : H256) (chunk : Bytes) : Service × FS :=
  match Service.feed_chunk env fs svc h chunk true with
  | (svc2, fs2, .ok _) => (svc2, fs2)
  | (svc2, fs2, .error _) =>
    let svc3 := { svc2 with restoration := none, status := .Failed }
    (svc3, tryRemoveAll env svc3.restoration_dir fs2)

/-- `Service::feed_block_chunk`. -/
def Service.feed_block_chunk (env : Env) (fs : FS) (svc : Service)
    (h : H256) (chunk : Bytes) : Service × FS :=
  match Service.feed_chunk env fs svc h chunk false with
  | (svc2, fs2, .ok _) => (svc2, fs2)
  | (svc2, fs2, .error _) =>
    let svc3 := { svc2 with restoration := none, status := .Failed }
    (svc3, tryRemoveAll env svc3.restoration_dir fs2)

/-- `SnapshotService::manifest` for `Service`. -/
def Service.manifest (svc : Service) : Option ManifestData :=
  svc.reader.map (fun r => r.manifest)

/-- `SnapshotService::chunk` for `Service` (reader errors collapse to
`None`). -/
def Service.chunk (svc : Service) (fs : FS) (h : H256) : Option Bytes :=
  svc.reader.bind (fun r => r.chunk fs h)

/-- `SnapshotService::chunks_done` for `Service`. -/
def Service.chunks_done (svc : Service) : Nat × Nat :=
  (svc.state_chunks, svc.block_chunks)

/-- `Service::new`.  The reader is opened over `snapshot/current` with a
failure collapsed to `None`; then the root snapshot dir is created
(tolerating `AlreadyExists`) and any leftover restoration dir is removed
(tolerating `NotFound`). -/
def Service.new (env : Env) (fs : FS) (client_db : Path) :
    Except Err (Service × FS) :=
  if client_db.length < 2 then
    .error (.simpleString ("Failed to find database root."))
  else
    let db_path := client_db.dropLast.dropLast
    let reader :=
      (LooseReader.new fs (db_path ++ [Seg.snapshot, Seg.current])).toOption
    let svc : Service := {
      restoration := none, client_db := client_db, db_path := db_path,
      status := .Inactive, reader := reader,
      state_chunks := 0, block_chunks := 0 }
    match fsCreateDirAll env svc.root_dir fs with
    | .error e =>
      if e = .io .alreadyExists then
        match tolerantRemove env svc.restoration_dir fs with
        | .error e2 => .error e2
        | .ok fs2 => .ok (svc, fs2)
      else .error e
    | .ok fs1 =>
      match tolerantRemove env svc.restoration_dir fs1 with
      | .error e2 => .error e2
      | .ok fs2 => .ok (svc, fs2)

/-! ### Small list facts used by the claims -/

theorem not_mem_erase_self {l : List H256} (hnd : l.Nodup) (a : H256) :
    a ∉ l.erase a := by
  induction l with
  | nil => simp
  | cons b l ih =>
    obtain ⟨hbl, hl⟩ := List.nodup_cons.mp hnd
    by_cases hba : b = a
    · subst hba
      rw [List.erase_cons_head]
      exact hbl
    · rw [List.erase_cons_tail (by simp [hba])]
      intro hc
      rcases List.mem_cons.mp hc with h1 | h1
      · exact hba h1.symm
      · exact ih hl h1

/-! ### Concrete fixtures for the witnesses and counterexamples -/

/-- A fault-free oracle environment: decompression returns the input
bytes, the rebuilders never fail, and the state root of a trace is its
length. -/
def envId : Env := {
  renameFault := fun _ _ => false
  removeFault := fun _ => false
  createFault := fun _ => false
  writeFault := fun _ => false
  decompressInto := fun c _ => .ok (c, c.length)
  stateFeedErr := fun _ _ => none
  blockFeedErr := fun _ _ => none
  stateRoot := fun l => l.length
  checkMissingErr := fun _ => none
  dbOpenErr := fun _ => none
  blockRebuilderErr := fun _ => none }

def fs0 : FS := { dirs := [], files := [] }

def writerW : LooseWriter := { dir := [Seg.temp] }

def mW : ManifestData :=
  { state_hashes := [5], block_hashes := [], state_root := 0,
    block_number := 0 }

/-- An unfinished restoration: one state chunk still expected. -/
def rW9 : Restoration := {
  manifest := mW, state_chunks_left := [5], block_chunks_left := [],
  state := { fed := [] }, blocks := { fed := [] }, writer := writerW,
  snappy_buffer := [], final_state_root := 0 }

/-- A completed restoration whose expected root `3` differs from the
computed root (`envId.stateRoot [] = 0`). -/
def rW1 : Restoration := {
  manifest := mW, state_chunks_left := [], block_chunks_left := [],
  state := { fed := [] }, blocks := { fed := [] }, writer := writerW,
  snappy_buffer := [], final_state_root := 3 }

/-- Like `rW1` but with expected root `4`. -/
def rW1b : Restoration := { rW1 with final_state_root := 4 }

/-! ### C9 -/

/-- C9: calling `Restoration::finalize` when `is_done()` is false returns
`Ok` while performing none of the finalize steps — no state-root
verification, no missing-code check, no chunk gluing, no `MANIFEST`
write — and leaves the filesystem unchanged: the unmet precondition is
silently swallowed. -/
theorem c9_finalize_before_done_is_silent_ok (env : Env) (fs : FS)
    (r : Restoration) (hnd : r.is_done = false) :
    Restoration.finalize env fs r = ([], fs, .ok ()) := by
  unfold Restoration.finalize
  rw [hnd]
  rfl

/-- Witness for C9 at a concrete unfinished restoration. -/
theorem c9_witness :
    rW9.is_done = false ∧
      Restoration.finalize envId fs0 rW9 = ([], fs0, .ok ()) :=
  ⟨rfl, c9_finalize_before_done_is_silent_ok envId fs0 rW9 rfl⟩

/-! ### C1 -/

/-- C1 counterexample: two completed restorations that differ only in the
expected (`final_state_root`) root produce *identical* `finalize`
outputs, so the returned `WrongStateRoot` error cannot be reporting the
expected root — it carries only the computed one.  (The `warn!` log line
is the only place both roots appear, and it swaps the `expected`/`got`
labels.) -/
theorem c1_counterexample :
    Restoration.finalize envId fs0 rW1 = Restoration.finalize envId fs0 rW1b ∧
      rW1.final_state_root ≠ rW1b.final_state_root := by
  exact ⟨rfl, by decide⟩

/-- C1 (amended): for a completed restoration whose computed root differs
from `final_state_root`, `finalize` fails with a state-root-mismatch
error carrying the computed (got) root only, leaves the filesystem
unchanged, and performs none of the later steps (no `check_missing`, no
`glue_chunks`, no `writer.finish`). -/
theorem c1_finalize_wrong_root (env : Env) (fs : FS) (r : Restoration)
    (hdone : r.is_done = true)
    (hroot : env.stateRoot r.state.fed ≠ r.final_state_root) :
    Restoration.finalize env fs r =
      ([.rootCheck], fs,
        .error (.invalidStateRoot (env.stateRoot r.state.fed))) := by
  unfold Restoration.finalize
  rw [hdone]
  simp [hroot]

/-- Witness for C1's amended theorem at a concrete restoration. -/
theorem c1_witness :
    rW1.is_done = true ∧
      envId.stateRoot rW1.state.fed ≠ rW1.final_state_root ∧
      Restoration.finalize envId fs0 rW1 =
        ([.rootCheck], fs0, .error (.invalidStateRoot 0)) :=
  ⟨rfl, by decide, c1_finalize_wrong_root envId fs0 rW1 rfl (by decide)⟩

/-! ### C2 -/

/-- C2: `Restoration::feed_state` — a hash outside `state_chunks_left` is
a silent no-op that changes nothing; an expected hash is removed from the
set, the chunk is decompressed into `snappy_buffer`, the decompressed
bytes are fed to the state rebuilder and the *compressed* bytes are
persisted by the writer; re-feeding the same hash afterwards is a silent
no-op, so the rebuilder and the writer observe each accepted chunk
exactly once.  `feed_blocks` mirrors all of this for the block set. -/
theorem c2_feed_set_discipline (env : Env) (fs : FS) (r : Restoration)
    (h : H256) (chunk : Bytes)
    (hnds : r.state_chunks_left.Nodup) (hndb : r.block_chunks_left.Nodup) :
    (h ∉ r.state_chunks_left →
      Restoration.feed_state env fs r h chunk = (r, fs, .ok ())) ∧
    (h ∉ r.block_chunks_left →
      Restoration.feed_blocks env fs r h chunk = (r, fs, .ok ())) ∧
    (∀ buf len, h ∈ r.state_chunks_left →
      env.decompressInto chunk r.snappy_buffer = .ok (buf, len) →
      env.stateFeedErr r.state.fed (buf.take len) = none →
      env.writeFault (r.writer.dir ++ [Seg.hashSeg h]) = false →
      ∃ r2,
        Restoration.feed_state env fs r h chunk =
          (r2, fs.write (r.writer.dir ++ [Seg.hashSeg h]) (.raw chunk),
            .ok ()) ∧
        r2.state_chunks_left = r.state_chunks_left.erase h ∧
        r2.state.fed = r.state.fed ++ [buf.take len] ∧
        r2.snappy_buffer = buf ∧
        r2.block_chunks_left = r.block_chunks_left ∧
        h ∉ r2.state_chunks_left ∧
        (∀ fs3 chunk3,
          Restoration.feed_state env fs3 r2 h chunk3 = (r2, fs3, .ok ()))) ∧
    (∀ buf len, h ∈ r.block_chunks_left →
      env.decompressInto chunk r.snappy_buffer = .ok (buf, len) →
      env.blockFeedErr r.blocks.fed (buf.take len) = none →
      env.writeFault (r.writer.dir ++ [Seg.hashSeg h]) = false →
      ∃ r2,
        Restoration.feed_blocks env fs r h chunk =
          (r2, fs.write (r.writer.dir ++ [Seg.hashSeg h]) (.raw chunk),
            .ok ()) ∧
        r2.block_chunks_left = r.block_chunks_left.erase h ∧
        r2.blocks.fed = r.blocks.fed ++ [buf.take len] ∧
        r2.snappy_buffer = buf ∧
        r2.state_chunks_left = r.state_chunks_left ∧
        h ∉ r2.block_chunks_left ∧
        (∀ fs3 chunk3,
          Restoration.feed_blocks env fs3 r2 h chunk3 = (r2, fs3, .ok ()))) := by
  refine ⟨?_, ?_, ?_, ?_⟩
  · intro hm
    unfold Restoration.feed_state
    rw [if_neg hm]
  · intro hm
    unfold Restoration.feed_blocks
    rw [if_neg hm]
  · intro buf len hm hdec hfeed hfault
    refine ⟨{ r with
        state_chunks_left := r.state_chunks_left.erase h,
        snappy_buffer := buf,
        state := { fed := r.state.fed ++ [buf.take len] } },
      ?_, rfl, rfl, rfl, rfl, not_mem_erase_self hnds h, ?_⟩
    · simp only [Restoration.feed_state, LooseWriter.write_state_chunk,
        if_pos hm, hdec, hfeed, hfault]
      simp
    · intro fs3 chunk3
      simp [Restoration.feed_state, not_mem_erase_self hnds h]
  · intro buf len hm hdec hfeed hfault
    refine ⟨{ r with
        block_chunks_left := r.block_chunks_left.erase h,
        snappy_buffer := buf,
        blocks := { fed := r.blocks.fed ++ [buf.take len] } },
      ?_, rfl, rfl, rfl, rfl, not_mem_erase_self hndb h, ?_⟩
    · simp only [Restoration.feed_blocks, LooseWriter.write_block_chunk,
        if_pos hm, hdec, hfeed, hfault]
      simp
    · intro fs3 chunk3
      simp [Restoration.feed_blocks, not_mem_erase_self hndb h]

/-- A restoration expecting state chunk `5` and block chunk `7`. -/
def rW2 : Restoration := {
  manifest := mW, state_chunks_left := [5], block_chunks_left := [7],
  state := { fed := [] }, blocks := { fed := [] }, writer := writerW,
  snappy_buffer := [], final_state_root := 0 }

/-- Witness for C2 at a concrete accepted state chunk (note the persisted
file holds the compressed bytes `[9]`, while the rebuilder received the
decompressed form). -/
theorem c2_witness :
    ∃ r2,
      Restoration.feed_state envId fs0 rW2 5 [9] =
        (r2, fs0.write (rW2.writer.dir ++ [Seg.hashSeg 5]) (.raw [9]),
          .ok ()) ∧
      r2.state_chunks_left = rW2.state_chunks_left.erase 5 ∧
      r2.state.fed = rW2.state.fed ++ [([9] : Bytes).take 1] ∧
      r2.snappy_buffer = [9] ∧
      r2.block_chunks_left = rW2.block_chunks_left ∧
      5 ∉ r2.state_chunks_left ∧
      (∀ fs3 chunk3,
        Restoration.feed_state envId fs3 r2 5 chunk3 = (r2, fs3, .ok ())) :=
  (c2_feed_set_discipline envId fs0 rW2 5 [9] (by decide) (by decide)).2.2.1
    [9] 1 (by decide) rfl rfl rfl

/-! ### Characterizations of the feed paths (shared helpers) -/

theorem feed_state_not_mem (env : Env) (fs : FS) (r : Restoration)
    (h : H256) (chunk : Bytes) (hm : h ∉ r.state_chunks_left) :
    Restoration.feed_state env fs r h chunk = (r, fs, .ok ()) := by
  unfold Restoration.feed_state
  rw [if_neg hm]

theorem feed_blocks_not_mem (env : Env) (fs : FS) (r : Restoration)
    (h : H256) (chunk : Bytes) (hm : h ∉ r.block_chunks_left) :
    Restoration.feed_blocks env fs r h chunk = (r, fs, .ok ()) := by
  unfold Restoration.feed_blocks
  rw [if_neg hm]

theorem feed_state_decomp_err (env : Env) (fs : FS) (r : Restoration)
    (h : H256) (chunk : Bytes) (e : Err) (hm : h ∈ r.state_chunks_left)
    (hdec : env.decompressInto chunk r.snappy_buffer = .error e) :
    Restoration.feed_state env fs r h chunk =
      ({ r with state_chunks_left := r.state_chunks_left.erase h }, fs,
        .error e) := by
  unfold Restoration.feed_state
  rw [if_pos hm, hdec]

theorem feed_state_accept (env : Env) (fs : FS) (r : Restoration)
    (h : H256) (chunk : Bytes) (buf : Bytes) (len : Nat)
    (hm : h ∈ r.state_chunks_left)
    (hdec : env.decompressInto chunk r.snappy_buffer = .ok (buf, len))
    (hfeed : env.stateFeedErr r.state.fed (buf.take len) = none)
    (hfault : env.writeFault (r.writer.dir ++ [Seg.hashSeg h]) = false) :
    Restoration.feed_state env fs r h chunk =
      ({ r with
          state_chunks_left := r.state_chunks_left.erase h,
          snappy_buffer := buf,
          state := { fed := r.state.fed ++ [buf.take len] } },
        fs.write (r.writer.dir ++ [Seg.hashSeg h]) (.raw chunk), .ok ()) := by
  simp only [Restoration.feed_state, LooseWriter.write_state_chunk,
    if_pos hm, hdec, hfeed, hfault]
  simp

/-! ### C8 -/

/-- C8: if `Service::init_restore` returns an error — at the removal or
recreation of the restoration dir, the writer creation, or the
`Restoration` construction — the restoration slot is left `None` and the
status field is unmodified; `status` becomes `Ongoing` (with a live
restoration) exactly when every step succeeds. -/
theorem c8_init_restore_failure_leaves_status (env : Env) (fs : FS)
    (svc : Service) (m : ManifestData) :
    ∀ svc2 fs2 res, Service.init_restore env fs svc m = (svc2, fs2, res) →
      (res = .ok () → svc2.status = .Ongoing ∧ svc2.restoration ≠ none) ∧
      (∀ e, res = .error e →
        svc2.restoration = none ∧ svc2.status = svc.status) := by
  intro svc2 fs2 res heq
  unfold Service.init_restore at heq
  dsimp only at heq
  split at heq <;>
    (try split at heq) <;> (try split at heq) <;> (try split at heq) <;>
    (try split at heq) <;>
  · rw [Prod.mk.injEq, Prod.mk.injEq] at heq
    obtain ⟨h1, h2, h3⟩ := heq
    subst h1
    subst h3
    constructor
    · intro hok
      simp_all
    · intro e2 he2
      simp_all

/-- An environment whose `remove_dir_all` always fails with a
non-`NotFound` error. -/
def envRF : Env := { envId with removeFault := fun _ => true }

/-- A service with a distinctive pre-call status, for the C8 witness. -/
def svcW8 : Service := {
  restoration := none,
  client_db := [Seg.other 0, Seg.other 1, Seg.dbSeg],
  db_path := [Seg.other 0], status := .Failed, reader := none,
  state_chunks := 2, block_chunks := 1 }

/-- Witness for C8: a failing `init_restore` (injected removal fault)
leaves `restoration = None` and the pre-call status `Failed` intact. -/
theorem c8_witness :
    (Service.init_restore envRF fs0 svcW8 mW).1.restoration = none ∧
      (Service.init_restore envRF fs0 svcW8 mW).1.status = svcW8.status :=
  (c8_init_restore_failure_leaves_status envRF fs0 svcW8 mW
      (Service.init_restore envRF fs0 svcW8 mW).1
      (Service.init_restore envRF fs0 svcW8 mW).2.1
      (Service.init_restore envRF fs0 svcW8 mW).2.2 rfl).2
    (.io .otherK) rfl

/-! ### C5 -/

/-- An ongoing service holding restoration `rW2` (which still expects
state chunk `5` and block chunk `7`), with counters at `(0, 0)`. -/
def svcW5 : Service := {
  restoration := some rW2,
  client_db := [Seg.other 0, Seg.other 1, Seg.dbSeg],
  db_path := [Seg.other 0], status := .Ongoing, reader := none,
  state_chunks := 0, block_chunks := 0 }

/-- C5 counterexample: during an `Ongoing` restoration, feeding a chunk
whose hash `99` is in neither chunks-left set still increments the state
counter from `0` to `1` — `fetch_add` runs on every `Ok` result of
`feed_state`, and the unknown-hash no-op returns `Ok`. -/
theorem c5_counterexample :
    svcW5.status = .Ongoing ∧
      (∀ r, svcW5.restoration = some r →
        99 ∉ r.state_chunks_left ∧ 99 ∉ r.block_chunks_left) ∧
      Service.chunks_done svcW5 = (0, 0) ∧
      Service.chunks_done
        (Service.feed_chunk envId fs0 svcW5 99 [1] true).1 = (1, 0) ∧
      Service.chunks_done (Service.feed_chunk envId fs0 svcW5 99 [1] true).1 ≠
        Service.chunks_done svcW5 := by
  refine ⟨rfl, ?_, rfl, by decide, by decide⟩
  intro r hr
  injection hr with hr
  subst hr
  exact ⟨by decide, by decide⟩

/-- C5 (amended): during an `Ongoing` restoration with a live restoration
object, a `feed_chunk` whose hash is not in the corresponding chunks-left
set is accepted as `Ok` and still increments the corresponding
`chunks_done` counter: the counters count `Ok` feed calls, not distinct
accepted chunks. -/
theorem c5_unknown_chunk_still_counts (env : Env) (fs : FS) (svc : Service)
    (r : Restoration) (h : H256) (chunk : Bytes)
    (hst : svc.status = .Ongoing) (hres : svc.restoration = some r)
    (hdone : r.is_done = false) :
    (h ∉ r.state_chunks_left →
      Service.feed_chunk env fs svc h chunk true =
        ({ svc with
            restoration := some r,
            state_chunks := svc.state_chunks + 1 }, fs, .ok ())) ∧
    (h ∉ r.block_chunks_left →
      Service.feed_chunk env fs svc h chunk false =
        ({ svc with
            restoration := some r,
            block_chunks := svc.block_chunks + 1 }, fs, .ok ())) := by
  constructor
  · intro hm
    unfold Service.feed_chunk
    rw [hst, hres]
    simp [feed_state_not_mem env fs r h chunk hm, hdone]
  · intro hm
    unfold Service.feed_chunk
    rw [hst, hres]
    simp [feed_blocks_not_mem env fs r h chunk hm, hdone]

/-- `Service::finalize_restoration` on a completed restoration with a
wrong state root: the counters have already been reset to zero when the
root check fails, and the error propagates with the restoration slot
cleared. -/
theorem finalize_restoration_wrong_root (env : Env) (fs : FS)
    (svc : Service) (r : Restoration) (hres : svc.restoration = some r)
    (hdone : r.is_done = true)
    (hroot : env.stateRoot r.state.fed ≠ r.final_state_root) :
    Service.finalize_restoration env fs svc =
      ({ svc with
          restoration := none, state_chunks := 0, block_chunks := 0 },
        fs, .error (.invalidStateRoot (env.stateRoot r.state.fed))) := by
  have hfin : Restoration.finalize env fs r =
      ([.rootCheck], fs,
        .error (.invalidStateRoot (env.stateRoot r.state.fed))) := by
    unfold Restoration.finalize
    rw [hdone]
    simp [hroot]
  unfold Service.finalize_restoration
  simp [hres, hfin]

/-- Witness for C5's amended theorem: the concrete unknown-hash feed. -/
theorem c5_witness :
    Service.feed_chunk envId fs0 svcW5 99 [1] true =
      ({ svcW5 with
          restoration := some rW2,
          state_chunks := svcW5.state_chunks + 1 }, fs0, .ok ()) :=
  (c5_unknown_chunk_still_counts envId fs0 svcW5 rW2 99 [1] rfl rfl
    (by decide)).1 (by decide)

/-! ### C6 -/

/-- A restoration one accepted state chunk away from finalize, whose
expected root `99` will not match the computed root. -/
def rW6 : Restoration := {
  manifest := mW, state_chunks_left := [5], block_chunks_left := [],
  state := { fed := [] }, blocks := { fed := [] }, writer := writerW,
  snappy_buffer := [], final_state_root := 99 }

/-- An ongoing service holding `rW6`, with counters at `(5, 3)`. -/
def svcW6 : Service := {
  restoration := some rW6,
  client_db := [Seg.other 0, Seg.other 1, Seg.dbSeg],
  db_path := [Seg.other 0], status := .Ongoing, reader := none,
  state_chunks := 5, block_chunks := 3 }

/-- C6 counterexample: feeding the final state chunk of `svcW6` triggers
finalize, the state-root check fails, `status` becomes `Failed` — but
`chunks_done` afterwards reads `(0, 0)`, not the pre-failure `(5, 3)`
(nor `(6, 3)` counting the just-accepted chunk): the counters were reset
by `finalize_restoration` before the failure, so they do not freeze at
the pre-failure count. -/
theorem c6_counterexample :
    Service.chunks_done svcW6 = (5, 3) ∧
      (Service.feed_state_chunk envId fs0 svcW6 5 [9]).1.status = .Failed ∧
      Service.chunks_done (Service.feed_state_chunk envId fs0 svcW6 5 [9]).1 =
        (0, 0) ∧
      ((0, 0) : Nat × Nat) ≠ (5, 3) ∧ ((0, 0) : Nat × Nat) ≠ (6, 3) :=
  ⟨rfl, rfl, rfl, by decide, by decide⟩

/-- C6 (amended): a failure in the feed stage itself (here: chunk
decompression) freezes `chunks_done` at its pre-failure value while
`status` becomes `Failed`; but a finalize-stage failure such as a wrong
state root on the last chunk occurs after `finalize_restoration` has
already reset both counters, so `chunks_done` then reads `(0, 0)` rather
than the pre-failure count. -/
theorem c6_counters_on_failure (env : Env) (fs : FS) (svc : Service)
    (r : Restoration) (h : H256) (chunk : Bytes)
    (hst : svc.status = .Ongoing) (hres : svc.restoration = some r) :
    (∀ e, h ∈ r.state_chunks_left →
      env.decompressInto chunk r.snappy_buffer = .error e →
      (Service.feed_state_chunk env fs svc h chunk).1.status = .Failed ∧
      Service.chunks_done (Service.feed_state_chunk env fs svc h chunk).1 =
        Service.chunks_done svc) ∧
    (∀ buf len, r.state_chunks_left = [h] → r.block_chunks_left = [] →
      env.decompressInto chunk r.snappy_buffer = .ok (buf, len) →
      env.stateFeedErr r.state.fed (buf.take len) = none →
      env.writeFault (r.writer.dir ++ [Seg.hashSeg h]) = false →
      env.stateRoot (r.state.fed ++ [buf.take len]) ≠ r.final_state_root →
      (Service.feed_state_chunk env fs svc h chunk).1.status = .Failed ∧
      Service.chunks_done (Service.feed_state_chunk env fs svc h chunk).1 =
        (0, 0)) := by
  constructor
  · intro e hm hdec
    have hfc : Service.feed_chunk env fs svc h chunk true =
        ({ svc with
            restoration :=
              some { r with
                state_chunks_left := r.state_chunks_left.erase h } },
          fs, .error e) := by
      unfold Service.feed_chunk
      rw [hst, hres]
      simp [feed_state_decomp_err env fs r h chunk e hm hdec]
    unfold Service.feed_state_chunk
    rw [hfc]
    exact ⟨rfl, rfl⟩
  · intro buf len hsl hbl hdec hfeed hfault hroot
    have hm : h ∈ r.state_chunks_left := by
      rw [hsl]
      exact List.mem_singleton_self h
    have hr2done :
        ({ r with
            state_chunks_left := r.state_chunks_left.erase h,
            snappy_buffer := buf,
            state := { fed := r.state.fed ++ [buf.take len] } }
          : Restoration).is_done = true := by
      simp [Restoration.is_done, hsl, hbl]
    have hfr := finalize_restoration_wrong_root env
      (fs.write (r.writer.dir ++ [Seg.hashSeg h]) (.raw chunk))
      { svc with
          restoration :=
            some { r with
              state_chunks_left := r.state_chunks_left.erase h,
              snappy_buffer := buf,
              state := { fed := r.state.fed ++ [buf.take len] } },
          state_chunks := svc.state_chunks + 1 }
      { r with
          state_chunks_left := r.state_chunks_left.erase h,
          snappy_buffer := buf,
          state := { fed := r.state.fed ++ [buf.take len] } }
      rfl hr2done hroot
    rw [hst] at hfr
    dsimp only at hfr
    have hfc : Service.feed_chunk env fs svc h chunk true =
        ({ svc with
            restoration := none, state_chunks := 0, block_chunks := 0 },
          fs.write (r.writer.dir ++ [Seg.hashSeg h]) (.raw chunk),
          .error (.invalidStateRoot
            (env.stateRoot (r.state.fed ++ [buf.take len])))) := by
      unfold Service.feed_chunk
      rw [hst, hres]
      simp [feed_state_accept env fs r h chunk buf len hm hdec hfeed hfault,
        hr2done, hfr]
    unfold Service.feed_state_chunk
    rw [hfc]
    exact ⟨rfl, rfl⟩

/-- An environment whose snappy decompression always fails. -/
def envCorrupt : Env :=
  { envId with decompressInto := fun _ _ => .error .corruptChunk }

/-- Witness for C6's amended theorem, both parts, at concrete inputs:
a decompression failure freezes the counters at `(5, 3)`; the wrong-root
finalize failure resets them to `(0, 0)`. -/
theorem c6_witness :
    ((Service.feed_state_chunk envCorrupt fs0 svcW6 5 [9]).1.status =
        .Failed ∧
      Service.chunks_done
          (Service.feed_state_chunk envCorrupt fs0 svcW6 5 [9]).1 =
        Service.chunks_done svcW6) ∧
    ((Service.feed_state_chunk envId fs0 svcW6 5 [9]).1.status = .Failed ∧
      Service.chunks_done
          (Service.feed_state_chunk envId fs0 svcW6 5 [9]).1 =
        (0, 0)) :=
  ⟨(c6_counters_on_failure envCorrupt fs0 svcW6 rW6 5 [9] rfl rfl).1
      .corruptChunk (by decide) rfl,
    (c6_counters_on_failure envId fs0 svcW6 rW6 5 [9] rfl rfl).2
      [9] 1 rfl rfl rfl rfl rfl (by decide)⟩

/-! ### C7 -/

/-- A service for exercising `replace_client_db` directly. -/
def svcW7 : Service := {
  restoration := none,
  client_db := [Seg.other 0, Seg.other 1, Seg.dbSeg],
  db_path := [Seg.other 0], status := .Ongoing, reader := none,
  state_chunks := 0, block_chunks := 0 }

/-- A filesystem where both the client DB and the restoration staging DB
exist. -/
def fs7 : FS := {
  dirs := [[Seg.other 0, Seg.other 1, Seg.dbSeg],
    [Seg.other 0, Seg.snapshot, Seg.restorationSeg, Seg.dbSeg]],
  files := [] }

/-- C7 counterexample: with both renames succeeding and the removal of
`backup_db/` failing, `replace_client_db` returns an error (the removal
is wrapped in `try!`, not best-effort), even though the swap itself
completed — the final tree holds `backup_db` (the old client DB) and the
new client DB. -/
theorem c7_counterexample :
    (Service.replace_client_db envRF fs7 svcW7).2 = .error (.io .otherK) ∧
      (Service.replace_client_db envRF fs7 svcW7).1.dirs =
        [[Seg.other 0, Seg.snapshot, Seg.restorationSeg, Seg.backupDb],
          [Seg.other 0, Seg.other 1, Seg.dbSeg]] :=
  ⟨rfl, rfl⟩

/-- C7 (amended): when the swap rename succeeds and the old client DB
existed, a failure while removing `backup_db/` is *propagated* as an
error from `replace_client_db` — the removal is not best effort — even
though the database swap has already completed: on return the client DB
path holds the restored database. -/
theorem c7_backup_removal_error_propagates (env : Env) (fs : FS)
    (svc : Service)
    (hic : Incomp svc.client_db svc.restoration_dir)
    (hcl : fs.existsNode svc.client_db = true)
    (hour : fs.existsNode svc.restoration_db = true)
    (hrf1 : env.renameFault svc.client_db svc.backup_db = false)
    (hrf2 : env.renameFault svc.restoration_db svc.client_db = false)
    (hrem : env.removeFault svc.backup_db = true) :
    ∃ fs2,
      Service.replace_client_db env fs svc = (fs2, .error (.io .otherK)) ∧
      ∀ s, fs2.file (svc.client_db ++ s) =
        fs.file (svc.restoration_db ++ s) := by
  have hio : Incomp svc.client_db svc.restoration_db :=
    incomp_ext hic [Seg.dbSeg]
  have hbo : Incomp svc.backup_db svc.restoration_db := by
    unfold Service.backup_db Service.restoration_db
    exact incomp_single _ (by decide)
  have hfs0 : tryRemoveAll env svc.backup_db fs = fs := by
    unfold tryRemoveAll fsRemoveDirAll
    rw [if_pos hrem]
  have hb : fsRename env svc.client_db svc.backup_db fs =
      .ok (fs.renamePure svc.client_db svc.backup_db) := by
    unfold fsRename
    rw [hrf1, hcl]
    simp
  have hex2 : (fs.renamePure svc.client_db svc.backup_db).existsNode
      svc.restoration_db = true := by
    rw [FS.existsNode_rename_incomp _ hio.symm hbo.symm]
    exact hour
  have hc : fsRename env svc.restoration_db svc.client_db
      (fs.renamePure svc.client_db svc.backup_db) =
      .ok ((fs.renamePure svc.client_db svc.backup_db).renamePure
        svc.restoration_db svc.client_db) := by
    unfold fsRename
    rw [hrf2, hex2]
    simp
  have he : fsRemoveDirAll env svc.backup_db
      ((fs.renamePure svc.client_db svc.backup_db).renamePure
        svc.restoration_db svc.client_db) = .error (.io .otherK) := by
    unfold fsRemoveDirAll
    rw [if_pos hrem]
  refine ⟨(fs.renamePure svc.client_db svc.backup_db).renamePure
      svc.restoration_db svc.client_db, ?_, ?_⟩
  · unfold Service.replace_client_db Service.replaceStep2
    simp [hfs0, hb, hc, he]
  · intro s
    rw [FS.file_rename_moved _ hio.symm s]
    exact FS.file_rename_other _ (incomp_ext hio s).1 (incomp_ext hbo s).1

/-- Witness for C7's amended theorem at the concrete filesystem `fs7`. -/
theorem c7_witness :
    ∃ fs2,
      Service.replace_client_db envRF fs7 svcW7 =
        (fs2, .error (.io .otherK)) ∧
      ∀ s, fs2.file (svcW7.client_db ++ s) =
        fs7.file (svcW7.restoration_db ++ s) :=
  c7_backup_removal_error_propagates envRF fs7 svcW7 (by decide) rfl rfl
    rfl rfl rfl

/-! ### C4 -/

theorem existsNode_rename_dst_nil (fs : FS) {src dst : Path}
    (hi : Incomp src dst) :
    (fs.renamePure src dst).existsNode dst = fs.existsNode src := by
  have h1 := FS.existsNode_rename_dst fs hi []
  simpa using h1

/-- C4: in `replace_client_db`, when the original client DB existed (its
rename to `backup_db` succeeded) and the swap rename of `restoration/db`
onto `client_db` then fails — by an injected fault or because the staging
DB is missing — the backup is renamed back to `client_db` and the error
is returned, so on error the client DB path resolves to the original
database: every file and every node under `client_db` is exactly as
before the call. -/
theorem c4_swap_failure_rolls_back (env : Env) (fs : FS) (svc : Service)
    (hic : Incomp svc.client_db svc.restoration_dir)
    (hcl : fs.existsNode svc.client_db = true)
    (hrf1 : env.renameFault svc.client_db svc.backup_db = false)
    (hrf3 : env.renameFault svc.backup_db svc.client_db = false)
    (hfail : env.renameFault svc.restoration_db svc.client_db = true ∨
      fs.existsNode svc.restoration_db = false) :
    ∃ e fs2,
      Service.replace_client_db env fs svc = (fs2, .error e) ∧
      (∀ s, fs2.file (svc.client_db ++ s) = fs.file (svc.client_db ++ s)) ∧
      (∀ s, fs2.existsNode (svc.client_db ++ s) =
        fs.existsNode (svc.client_db ++ s)) := by
  have hib : Incomp svc.client_db svc.backup_db :=
    incomp_ext hic [Seg.backupDb]
  have hio : Incomp svc.client_db svc.restoration_db :=
    incomp_ext hic [Seg.dbSeg]
  have hbo : Incomp svc.backup_db svc.restoration_db := by
    unfold Service.backup_db Service.restoration_db
    exact incomp_single _ (by decide)
  have hcl0 : (tryRemoveAll env svc.backup_db fs).existsNode
      svc.client_db = true := by
    rw [existsNode_tryRemoveAll_incomp env _ fs hib]
    exact hcl
  have hb : fsRename env svc.client_db svc.backup_db
      (tryRemoveAll env svc.backup_db fs) =
      .ok ((tryRemoveAll env svc.backup_db fs).renamePure
        svc.client_db svc.backup_db) := by
    unfold fsRename
    rw [hrf1, hcl0]
    simp
  have hcfail : ∃ e,
      fsRename env svc.restoration_db svc.client_db
        ((tryRemoveAll env svc.backup_db fs).renamePure
          svc.client_db svc.backup_db) = .error e := by
    by_cases hf2 : env.renameFault svc.restoration_db svc.client_db = true
    · refine ⟨.io .otherK, ?_⟩
      unfold fsRename
      rw [if_pos hf2]
    · rcases hfail with hf | hne
      · exact absurd hf hf2

      · refine ⟨.io .notFound, ?_⟩
        unfold fsRename
        rw [if_neg hf2]
        have hnex : ((tryRemoveAll env svc.backup_db fs).renamePure
            svc.client_db svc.backup_db).existsNode
            svc.restoration_db = false := by
          rw [FS.existsNode_rename_incomp _ hio.symm hbo.symm,
            existsNode_tryRemoveAll_incomp env _ fs hbo.symm]
          exact hne
        rw [hnex]
        simp
  obtain ⟨e, hce⟩ := hcfail
  have hexb : ((tryRemoveAll env svc.backup_db fs).renamePure
      svc.client_db svc.backup_db).existsNode svc.backup_db = true := by
    rw [existsNode_rename_dst_nil _ hib]
    exact hcl0
  have hrec : fsRename env svc.backup_db svc.client_db
      ((tryRemoveAll env svc.backup_db fs).renamePure
        svc.client_db svc.backup_db) =
      .ok (((tryRemoveAll env svc.backup_db fs).renamePure
        svc.client_db svc.backup_db).renamePure
          svc.backup_db svc.client_db) := by
    unfold fsRename
    rw [hrf3, hexb]
    simp
  refine ⟨e, ((tryRemoveAll env svc.backup_db fs).renamePure
      svc.client_db svc.backup_db).renamePure svc.backup_db svc.client_db,
    ?_, ?_, ?_⟩
  · unfold Service.replace_client_db Service.replaceStep2
    simp [hb, hce, hrec]
  · intro s
    rw [FS.file_rename_moved _ hib.symm s, FS.file_rename_moved _ hib s]
    exact file_tryRemoveAll_other env _ fs (incomp_ext hib.symm s).1
  · intro s
    rw [FS.existsNode_rename_dst _ hib.symm s, FS.existsNode_rename_dst _ hib s]
    exact existsNode_tryRemoveAll_incomp env _ fs
      ((incomp_ext hib.symm s).symm)

/-- A filesystem for the C4 witness: the client DB exists (with one file
inside it), the staging restoration DB does *not*. -/
def fs4 : FS := {
  dirs := [[Seg.other 0, Seg.other 1, Seg.dbSeg]],
  files := [([Seg.other 0, Seg.other 1, Seg.dbSeg, Seg.other 42],
    .raw [1, 2, 3])] }

/-- Witness for C4: the swap rename fails with `NotFound` (no staging
DB); the client DB — including its file — is restored. -/
theorem c4_witness :
    ∃ e fs2,
      Service.replace_client_db envId fs4 svcW7 = (fs2, .error e) ∧
      (∀ s, fs2.file (svcW7.client_db ++ s) =
        fs4.file (svcW7.client_db ++ s)) ∧
      (∀ s, fs2.existsNode (svcW7.client_db ++ s) =
        fs4.existsNode (svcW7.client_db ++ s)) :=
  c4_swap_failure_rolls_back envId fs4 svcW7 (by decide) rfl rfl rfl
    (Or.inr rfl)

/-! ### C10 -/

theorem mem_dirs_removeAll {fs : FS} {root p : Path} :
    p ∈ (fs.removeAll root).dirs ↔ p ∈ fs.dirs ∧ ¬ pre root p = true := by
  unfold FS.removeAll
  simp [List.mem_filter]

theorem pre_snoc_self_false (x : Path) (a : Seg) :
    pre (x ++ [a]) x = false := by
  cases hb : pre (x ++ [a]) x with
  | false => rfl
  | true =>
    have := pre_length hb
    simp at this

/-- C10: `Service::new` succeeds even when `snapshot/current` is absent
or its `MANIFEST` does not parse — the reader is then `None` and both
`manifest()` and `chunk(h)` return `None` rather than an error; any
leftover `restoration/` tree is removed at construction; and a removal
error other than `NotFound` fails construction. -/
theorem c10_new_tolerates_missing_snapshot (env : Env) (fs : FS)
    (cdb : Path) (hlen : 2 ≤ cdb.length)
    (hcf : env.createFault (cdb.dropLast.dropLast ++ [Seg.snapshot]) =
      false) :
    ((env.removeFault
        ((cdb.dropLast.dropLast ++ [Seg.snapshot]) ++ [Seg.restorationSeg]) =
        false) →
      ∃ svc fs2, Service.new env fs cdb = .ok (svc, fs2) ∧
        svc.status = .Inactive ∧ svc.restoration = none ∧
        svc.reader = (LooseReader.new fs
          (cdb.dropLast.dropLast ++ [Seg.snapshot, Seg.current])).toOption ∧
        ((LooseReader.new fs
            (cdb.dropLast.dropLast ++ [Seg.snapshot, Seg.current])).isOk =
            false →
          svc.reader = none ∧ Service.manifest svc = none ∧
            ∀ h2, Service.chunk svc fs2 h2 = none) ∧
        (∀ p,
          pre ((cdb.dropLast.dropLast ++ [Seg.snapshot]) ++
            [Seg.restorationSeg]) p = true →
          fs2.file p = none ∧ p ∉ fs2.dirs)) ∧
    ((env.removeFault
        ((cdb.dropLast.dropLast ++ [Seg.snapshot]) ++ [Seg.restorationSeg]) =
        true) →
      Service.new env fs cdb = .error (.io .otherK)) := by
  have hnlt : ¬ cdb.length < 2 := by omega
  constructor
  · intro hrm
    have hcda : fsCreateDirAll env
        (cdb.dropLast.dropLast ++ [Seg.snapshot]) fs =
        .ok (fs.mkDirAll (cdb.dropLast.dropLast ++ [Seg.snapshot])) := by
      unfold fsCreateDirAll
      rw [hcf]
      simp
    by_cases hex : (fs.mkDirAll
        (cdb.dropLast.dropLast ++ [Seg.snapshot])).existsNode
        ((cdb.dropLast.dropLast ++ [Seg.snapshot]) ++ [Seg.restorationSeg]) =
        true
    · have htr : tolerantRemove env
          ((cdb.dropLast.dropLast ++ [Seg.snapshot]) ++ [Seg.restorationSeg])
          (fs.mkDirAll (cdb.dropLast.dropLast ++ [Seg.snapshot])) =
          .ok ((fs.mkDirAll
            (cdb.dropLast.dropLast ++ [Seg.snapshot])).removeAll
            ((cdb.dropLast.dropLast ++ [Seg.snapshot]) ++
              [Seg.restorationSeg])) := by
        unfold tolerantRemove fsRemoveDirAll
        rw [hrm, hex]
        simp
      refine ⟨{
          restoration := none,
          client_db := cdb,
          db_path := cdb.dropLast.dropLast,
          status := .Inactive,
          reader := (LooseReader.new fs
            (cdb.dropLast.dropLast ++ [Seg.snapshot, Seg.current])).toOption,
          state_chunks := 0,
          block_chunks := 0 },
        (fs.mkDirAll (cdb.dropLast.dropLast ++ [Seg.snapshot])).removeAll
          ((cdb.dropLast.dropLast ++ [Seg.snapshot]) ++ [Seg.restorationSeg]),
        ?_, rfl, rfl, rfl, ?_, ?_⟩
      · unfold Service.new
        rw [if_neg hnlt]
        simp only [Service.root_dir, Service.restoration_dir]
        rw [hcda]
        dsimp only
        rw [htr]
      · intro hno
        refine ⟨?_, ?_, ?_⟩
        · cases hlr : LooseReader.new fs
            (cdb.dropLast.dropLast ++ [Seg.snapshot, Seg.current]) with
          | ok rd => rw [hlr] at hno; cases hno
          | error e => simp [hlr, Except.toOption]
        · cases hlr : LooseReader.new fs
            (cdb.dropLast.dropLast ++ [Seg.snapshot, Seg.current]) with
          | ok rd => rw [hlr] at hno; cases hno
          | error e => simp [Service.manifest, hlr, Except.toOption]
        · intro h2
          cases hlr : LooseReader.new fs
            (cdb.dropLast.dropLast ++ [Seg.snapshot, Seg.current]) with
          | ok rd => rw [hlr] at hno; cases hno
          | error e => simp [Service.chunk, hlr, Except.toOption]
      · intro p hp
        constructor
        · exact FS.file_removeAll_under _ hp
        · intro hc
          exact (mem_dirs_removeAll.mp hc).2 hp
    · have htr : tolerantRemove env
          ((cdb.dropLast.dropLast ++ [Seg.snapshot]) ++ [Seg.restorationSeg])
          (fs.mkDirAll (cdb.dropLast.dropLast ++ [Seg.snapshot])) =
          .ok (fs.mkDirAll (cdb.dropLast.dropLast ++ [Seg.snapshot])) := by
        unfold tolerantRemove fsRemoveDirAll
        rw [hrm]
        rw [if_neg hex]
        simp
      refine ⟨{
          restoration := none,
          client_db := cdb,
          db_path := cdb.dropLast.dropLast,
          status := .Inactive,
          reader := (LooseReader.new fs
            (cdb.dropLast.dropLast ++ [Seg.snapshot, Seg.current])).toOption,
          state_chunks := 0,
          block_chunks := 0 },
        fs.mkDirAll (cdb.dropLast.dropLast ++ [Seg.snapshot]),
        ?_, rfl, rfl, rfl, ?_, ?_⟩
      · unfold Service.new
        rw [if_neg hnlt]
        simp only [Service.root_dir, Service.restoration_dir]
        rw [hcda]
        dsimp only
        rw [htr]
      · intro hno
        refine ⟨?_, ?_, ?_⟩
        · cases hlr : LooseReader.new fs
            (cdb.dropLast.dropLast ++ [Seg.snapshot, Seg.current]) with
          | ok rd => rw [hlr] at hno; cases hno
          | error e => simp [hlr, Except.toOption]
        · cases hlr : LooseReader.new fs
            (cdb.dropLast.dropLast ++ [Seg.snapshot, Seg.current]) with
          | ok rd => rw [hlr] at hno; cases hno
          | error e => simp [Service.manifest, hlr, Except.toOption]
        · intro h2
          cases hlr : LooseReader.new fs
            (cdb.dropLast.dropLast ++ [Seg.snapshot, Seg.current]) with
          | ok rd => rw [hlr] at hno; cases hno
          | error e => simp [Service.chunk, hlr, Except.toOption]
      · intro p hp
        constructor
        · cases hf : (fs.mkDirAll
              (cdb.dropLast.dropLast ++ [Seg.snapshot])).file p with
          | none => rfl
          | some d =>
            exact absurd (FS.existsNode_of_file hf hp) hex
        · intro hc
          have : (fs.mkDirAll
              (cdb.dropLast.dropLast ++ [Seg.snapshot])).existsNode
              ((cdb.dropLast.dropLast ++ [Seg.snapshot]) ++
                [Seg.restorationSeg]) = true := by
            unfold FS.existsNode
            simp only [Bool.or_eq_true, List.any_eq_true]
            exact Or.inl ⟨p, hc, hp⟩
          exact absurd this hex
  · intro hrm
    have hcda : fsCreateDirAll env
        (cdb.dropLast.dropLast ++ [Seg.snapshot]) fs =
        .ok (fs.mkDirAll (cdb.dropLast.dropLast ++ [Seg.snapshot])) := by
      unfold fsCreateDirAll
      rw [hcf]
      simp
    have htr : tolerantRemove env
        ((cdb.dropLast.dropLast ++ [Seg.snapshot]) ++ [Seg.restorationSeg])
        (fs.mkDirAll (cdb.dropLast.dropLast ++ [Seg.snapshot])) =
        .error (.io .otherK) := by
      unfold tolerantRemove fsRemoveDirAll
      rw [hrm]
      simp
    unfold Service.new
    rw [if_neg hnlt]
    simp only [Service.root_dir, Service.restoration_dir]
    rw [hcda]
    dsimp only
    rw [htr]

/-- A filesystem with a leftover `restoration/` dir and a `MANIFEST`
under `snapshot/current` that does not parse. -/
def fs10 : FS := {
  dirs := [[Seg.other 0, Seg.snapshot, Seg.restorationSeg]],
  files := [([Seg.other 0, Seg.snapshot, Seg.current, Seg.manifestFile],
    .raw [1])] }

/-- Witness for C10: construction succeeds over `fs10`, the reader is
`None` (unparseable manifest), `manifest()`/`chunk()` return `None`, and
the leftover restoration tree is gone. -/
theorem c10_witness :
    ∃ svc fs2,
      Service.new envId fs10 [Seg.other 0, Seg.other 1, Seg.dbSeg] =
        .ok (svc, fs2) ∧
      svc.status = .Inactive ∧ svc.restoration = none ∧
      svc.reader = (LooseReader.new fs10
        (([Seg.other 0, Seg.other 1, Seg.dbSeg] : Path).dropLast.dropLast ++
          [Seg.snapshot, Seg.current])).toOption ∧
      ((LooseReader.new fs10
          (([Seg.other 0, Seg.other 1, Seg.dbSeg] : Path).dropLast.dropLast ++
            [Seg.snapshot, Seg.current])).isOk = false →
        svc.reader = none ∧ Service.manifest svc = none ∧
          ∀ h2, Service.chunk svc fs2 h2 = none) ∧
      (∀ p,
        pre ((([Seg.other 0, Seg.other 1, Seg.dbSeg] : Path).dropLast.dropLast
          ++ [Seg.snapshot]) ++ [Seg.restorationSeg]) p = true →
        fs2.file p = none ∧ p ∉ fs2.dirs) :=
  (c10_new_tolerates_missing_snapshot envId fs10
    [Seg.other 0, Seg.other 1, Seg.dbSeg] (by decide) rfl).1 rfl

/-! ### Supporting lemmas for C3 -/

theorem take_app (p t : Path) (k : Nat) :
    (p ++ t).take (p.length + k) = p ++ t.take k := by
  induction p with
  | nil => simp
  | cons a p ih =>
    simp only [List.cons_append, List.length_cons]
    rw [Nat.add_right_comm, List.take_succ_cons, ih]

theorem pre_snoc_snoc {x : Path} {a b : Seg} :
    pre (x ++ [a]) (x ++ [b]) = true ↔ a = b := by
  rw [pre_app_right_iff]
  simp [pre]

theorem file_rename_moved_nil (fs : FS) {src dst : Path}
    (hi : Incomp src dst) :
    (fs.renamePure src dst).file dst = fs.file src := by
  have h1 := FS.file_rename_moved fs hi []
  simpa using h1

theorem children_sub {fs : FS} {p c : Path} (hc : c ∈ fs.children p) :
    ∃ a, c = p ++ [a] := by
  unfold FS.children at hc
  rw [List.mem_dedup] at hc
  obtain ⟨n, _, hn⟩ := List.mem_filterMap.mp hc
  unfold childOf at hn
  by_cases hcond : pre p n = true ∧ p.length < n.length
  · rw [if_pos (by simpa using hcond)] at hn
    obtain ⟨t, rfl⟩ := (pre_iff p n).mp hcond.1
    have hlen := hcond.2
    cases t with
    | nil => simp at hlen
    | cons a t =>
      refine ⟨a, ?_⟩
      injection hn with hn
      rw [← hn]
      have ht := take_app p (a :: t) 1
      simpa using ht
  · rw [if_neg (by simpa using hcond)] at hn
    cases hn

theorem mem_children_of_file {fs : FS} {p : Path} {a : Seg} {d : FileData}
    (h : fs.file (p ++ [a]) = some d) : p ++ [a] ∈ fs.children p := by
  unfold FS.children
  rw [List.mem_dedup]
  refine List.mem_filterMap.mpr ⟨p ++ [a], ?_, ?_⟩
  · have hm := lookup_mem h
    exact List.mem_append_left _ (List.mem_map.mpr ⟨(p ++ [a], d), hm, rfl⟩)
  · unfold childOf
    rw [if_pos (by simp [pre_app])]
    have ht := take_app p [a] 1
    simp [ht]

theorem children_are_files {fs : FS} {p : Path}
    (hshape : ∀ e ∈ fs.files, pre p e.1 = true → ∃ n, e.1 = p ++ [n])
    (hdirs : ∀ d ∈ fs.dirs, pre p d = true → ¬ p.length < d.length) :
    ∀ c ∈ fs.children p, ∃ dta, fs.file c = some dta := by
  intro c hc
  unfold FS.children at hc
  rw [List.mem_dedup] at hc
  obtain ⟨n, hn, hco⟩ := List.mem_filterMap.mp hc
  unfold childOf at hco
  by_cases hcond : pre p n = true ∧ p.length < n.length
  · rw [if_pos (by simp [hcond.1, hcond.2])] at hco
    injection hco with hco
    rcases List.mem_append.mp hn with hnf | hnd
    · obtain ⟨e, he, hek⟩ := List.mem_map.mp hnf
      obtain ⟨a, ha⟩ := hshape e he (by rw [hek]; exact hcond.1)
      have hna : n = p ++ [a] := by rw [← hek, ha]
      have hcn : c = n := by
        rw [← hco, hna]
        have ht := take_app p [a] 1
        simp [ht]
      have hmem : (c, e.2) ∈ fs.files := by
        have hec : e.1 = c := by rw [hek, hcn]
        rw [← hec]
        exact he
      exact lookup_isSome_of_mem hmem
    · exact absurd hcond.2 (hdirs n hnd hcond.1)
  · rw [if_neg (by simpa using hcond)] at hco
    cases hco

theorem mem_renameDirs_under {t src dst : Path} (htd : Incomp t dst) :
    ∀ l : List Path, ∀ d ∈ renameDirs src dst l, pre t d = true → d ∈ l := by
  intro l
  induction l with
  | nil => intro d hd _; cases hd
  | cons d0 l ih =>
    intro d hd hu
    by_cases hdd : pre dst d0 = true
    · rw [renameDirs, if_pos hdd] at hd
      exact List.mem_cons_of_mem _ (ih d hd hu)
    · rw [renameDirs, if_neg hdd] at hd
      rcases List.mem_cons.mp hd with h1 | h1
      · by_cases hps : pre src d0 = true
        · obtain ⟨s, hs⟩ := (pre_iff _ _).mp hps
          rw [hs, movePath_app] at h1
          subst h1
          exact absurd (not_pre_of_incomp_prel htd (pre_app dst s) hu)
            (fun f => f)
        · rw [movePath_of_not_pre dst hps] at h1
          subst h1
          exact List.mem_cons_self _ _
      · exact List.mem_cons_of_mem _ (ih d h1 hu)

theorem mem_renameEntries_under {t src dst : Path} (htd : Incomp t dst) :
    ∀ l : List (Path × FileData), ∀ e ∈ renameEntries src dst l,
      pre t e.1 = true → e ∈ l := by
  intro l
  induction l with
  | nil => intro e he _; cases he
  | cons e0 l ih =>
    intro e he hu
    by_cases hdd : pre dst e0.1 = true
    · rw [renameEntries, if_pos hdd] at he
      exact List.mem_cons_of_mem _ (ih e he hu)
    · rw [renameEntries, if_neg hdd] at he
      rcases List.mem_cons.mp he with h1 | h1
      · by_cases hps : pre src e0.1 = true
        · obtain ⟨s, hs⟩ := (pre_iff _ _).mp hps
          have hk : e.1 = dst ++ s := by
            rw [h1]
            dsimp only
            rw [hs, movePath_app]
          rw [hk] at hu
          exact (not_pre_of_incomp_prel htd (pre_app dst s) hu).elim
        · have he0 : e = e0 := by
            rw [h1, movePath_of_not_pre dst hps]
          subst he0
          exact List.mem_cons_self _ _
      · exact List.mem_cons_of_mem _ (ih e h1 hu)

theorem mem_dirs_tryRemoveAll {env : Env} {p : Path} {fs : FS} {d : Path}
    (hd : d ∈ (tryRemoveAll env p fs).dirs) : d ∈ fs.dirs := by
  unfold tryRemoveAll fsRemoveDirAll at hd
  by_cases hf : env.removeFault p = true
  · rwa [if_pos hf] at hd
  · rw [if_neg hf] at hd
    by_cases he : fs.existsNode p = true
    · rw [if_pos he] at hd
      exact (mem_dirs_removeAll.mp hd).1

    · rwa [if_neg he] at hd

theorem mem_files_tryRemoveAll {env : Env} {p : Path} {fs : FS}
    {e : Path × FileData} (he : e ∈ (tryRemoveAll env p fs).files) :
    e ∈ fs.files := by
  unfold tryRemoveAll fsRemoveDirAll at he
  by_cases hf : env.removeFault p = true
  · rwa [if_pos hf] at he
  · rw [if_neg hf] at he
    by_cases hx : fs.existsNode p = true
    · rw [if_pos hx] at he
      exact List.mem_of_mem_filter he
    · rwa [if_neg hx] at he

/-- Success characterization of `replace_client_db` with no injected
faults: both renames go through and the backup is removed. -/
theorem replace_client_db_ok (env : Env) (fs : FS) (svc : Service)
    (hnf : noFault env)
    (hic : Incomp svc.client_db svc.root_dir)
    (hcl : fs.existsNode svc.client_db = true)
    (hour : fs.existsNode svc.restoration_db = true) :
    Service.replace_client_db env fs svc =
      ((((tryRemoveAll env svc.backup_db fs).renamePure svc.client_db
          svc.backup_db).renamePure svc.restoration_db
          svc.client_db).removeAll svc.backup_db, .ok ()) := by
  have hicr : Incomp svc.client_db svc.restoration_dir :=
    incomp_ext hic [Seg.restorationSeg]
  have hib : Incomp svc.client_db svc.backup_db :=
    incomp_ext hicr [Seg.backupDb]
  have hio : Incomp svc.client_db svc.restoration_db :=
    incomp_ext hicr [Seg.dbSeg]
  have hbo : Incomp svc.backup_db svc.restoration_db := by
    unfold Service.backup_db Service.restoration_db
    exact incomp_single _ (by decide)
  have hcl0 : (tryRemoveAll env svc.backup_db fs).existsNode
      svc.client_db = true := by
    rw [existsNode_tryRemoveAll_incomp env _ fs hib]
    exact hcl
  have hb : fsRename env svc.client_db svc.backup_db
      (tryRemoveAll env svc.backup_db fs) =
      .ok ((tryRemoveAll env svc.backup_db fs).renamePure
        svc.client_db svc.backup_db) := by
    unfold fsRename
    rw [hnf.1, hcl0]
    simp
  have hexr : ((tryRemoveAll env svc.backup_db fs).renamePure
      svc.client_db svc.backup_db).existsNode svc.restoration_db = true := by
    rw [FS.existsNode_rename_incomp _ hio.symm hbo.symm,
      existsNode_tryRemoveAll_incomp env _ fs hbo.symm]
    exact hour
  have hc : fsRename env svc.restoration_db svc.client_db
      ((tryRemoveAll env svc.backup_db fs).renamePure
        svc.client_db svc.backup_db) =
      .ok (((tryRemoveAll env svc.backup_db fs).renamePure
        svc.client_db svc.backup_db).renamePure
          svc.restoration_db svc.client_db) := by
    unfold fsRename
    rw [hnf.1, hexr]
    simp
  have hexb2 : (((tryRemoveAll env svc.backup_db fs).renamePure
      svc.client_db svc.backup_db).renamePure
        svc.restoration_db svc.client_db).existsNode
      svc.backup_db = true := by
    rw [FS.existsNode_rename_incomp _ hbo hib.symm,
      existsNode_rename_dst_nil _ hib]
    exact hcl0
  have he : fsRemoveDirAll env svc.backup_db
      (((tryRemoveAll env svc.backup_db fs).renamePure
        svc.client_db svc.backup_db).renamePure
          svc.restoration_db svc.client_db) =
      .ok ((((tryRemoveAll env svc.backup_db fs).renamePure
        svc.client_db svc.backup_db).renamePure
          svc.restoration_db svc.client_db).removeAll svc.backup_db) := by
    unfold fsRemoveDirAll
    rw [hnf.2.1, hexb2]
    simp
  unfold Service.replace_client_db Service.replaceStep2
  simp [hb, hc, he]

theorem getLast_snoc (p : Path) (a : Seg) :
    (p ++ [a]).getLast? = some a := by
  rw [List.getLast?_append_cons]
  rfl

/-- Specification of the move loop of `finalize_restoration`: with no
injected faults, moving a duplicate-free list of direct children of
`temp` into `snap` succeeds, lands every child under `snap` under its
basename, and touches nothing outside the two subtrees. -/
theorem moveLoop_ok (env : Env) (hnf : noFault env) (snap temp : Path)
    (hi : Incomp temp snap) :
    ∀ (C : List Path) (fs : FS),
      C.Nodup →
      (∀ c ∈ C, ∃ a, c = temp ++ [a]) →
      (∀ c ∈ C, ∃ d, fs.file c = some d) →
      ∃ fs2, moveLoop env snap C fs = (fs2, .ok ()) ∧
        (∀ a, temp ++ [a] ∈ C →
          fs2.file (snap ++ [a]) = fs.file (temp ++ [a])) ∧
        (∀ q, ¬ pre temp q = true →
          (∀ a, temp ++ [a] ∈ C → ¬ pre (snap ++ [a]) q = true) →
          fs2.file q = fs.file q) := by
  intro C
  induction C with
  | nil =>
    intro fs _ _ _
    refine ⟨fs, rfl, ?_, ?_⟩
    · intro a ha
      cases ha
    · intro q _ _
      rfl
  | cons c C ih =>
    intro fs hnd hsh hfi
    obtain ⟨a, rfl⟩ := hsh c (List.mem_cons_self _ _)
    obtain ⟨d, hd⟩ := hfi _ (List.mem_cons_self _ _)
    have hanot : temp ++ [a] ∉ C := (List.nodup_cons.mp hnd).1
    have hren : fsRename env (temp ++ [a]) (snap ++ [a]) fs =
        .ok (fs.renamePure (temp ++ [a]) (snap ++ [a])) := by
      unfold fsRename
      rw [hnf.1, FS.existsNode_of_file hd (pre_refl _)]
      simp
    have hfi2 : ∀ c2 ∈ C,
        ∃ d2, (fs.renamePure (temp ++ [a]) (snap ++ [a])).file c2 =
          some d2 := by
      intro c2 hc2
      obtain ⟨a2, rfl⟩ := hsh c2 (List.mem_cons_of_mem _ hc2)
      obtain ⟨d2, hd2⟩ := hfi _ (List.mem_cons_of_mem _ hc2)
      refine ⟨d2, ?_⟩
      rw [FS.file_rename_other]
      · exact hd2
      · intro hc
        have ha2 : a = a2 := pre_snoc_snoc.mp hc
        exact hanot (ha2 ▸ hc2)
      · intro hc
        exact not_pre_of_incomp_prel hi.symm (pre_app temp [a2])
          (pre_trans (pre_app snap [a]) hc)
    obtain ⟨fs2, hloop, hmoved, hother⟩ :=
      ih (fs.renamePure (temp ++ [a]) (snap ++ [a]))
        (List.nodup_cons.mp hnd).2
        (fun c2 hc2 => hsh c2 (List.mem_cons_of_mem _ hc2)) hfi2
    refine ⟨fs2, ?_, ?_, ?_⟩
    · rw [moveLoop, getLast_snoc]
      simp [hren, hloop]
    · intro a0 ha0
      rcases List.mem_cons.mp ha0 with h1 | h1
      · have haa : a0 = a := by
          have := app_cancel h1
          injection this
        subst haa
        have hq1 : fs2.file (snap ++ [a0]) =
            (fs.renamePure (temp ++ [a0]) (snap ++ [a0])).file
              (snap ++ [a0]) := by
          apply hother
          · intro hc
            exact not_pre_of_incomp_prel hi (pre_app snap [a0]) hc
          · intro a2 ha2 hc
            have := pre_snoc_snoc.mp hc
            exact hanot (this ▸ ha2)
        rw [hq1]
        exact file_rename_moved_nil fs (incomp_ext2 hi [a0] [a0])
      · rw [hmoved a0 h1]
        obtain ⟨d2, hd2⟩ := hfi2 _ h1
        obtain ⟨d3, hd3⟩ := hfi _ (List.mem_cons_of_mem _ h1)
        rw [hd2]
        rw [FS.file_rename_other] at hd2
        · rw [hd2]
        · intro hc
          have hc2m := hsh _ (List.mem_cons_of_mem _ h1)
          obtain ⟨a2, ha2⟩ := hc2m
          rw [ha2] at hc
          have := pre_snoc_snoc.mp hc
          rw [ha2] at h1
          exact hanot (this ▸ h1)
        · intro hc
          obtain ⟨a2, ha2⟩ := hsh _ (List.mem_cons_of_mem _ h1)
          rw [ha2] at hc
          exact not_pre_of_incomp_prel hi.symm (pre_app temp [a2])
            (pre_trans (pre_app snap [a]) hc)
    · intro q hq hsnapq
      rw [hother q hq (fun a2 ha2 => hsnapq a2 (List.mem_cons_of_mem _ ha2))]
      rw [FS.file_rename_other]
      · intro hc
        exact hq (pre_trans (pre_app temp [a]) hc)
      · exact hsnapq a (List.mem_cons_self _ _)

theorem tolerantRemove_facts (env : Env) (hnf : noFault env) (p : Path)
    (fs : FS) :
    ∃ fs2, tolerantRemove env p fs = .ok fs2 ∧
      (∀ q, ¬ pre p q = true → fs2.file q = fs.file q) ∧
      fs2.existsNode p = false ∧
      (∀ q, q ∈ fs2.dirs → q ∈ fs.dirs) ∧
      (∀ e, e ∈ fs2.files → e ∈ fs.files) := by
  have hrf : env.removeFault p = false := hnf.2.1 p
  by_cases he : fs.existsNode p = true
  · refine ⟨fs.removeAll p, ?_, ?_, fs.existsNode_removeAll_self p, ?_, ?_⟩
    · unfold tolerantRemove fsRemoveDirAll
      rw [hrf, he]
      simp
    · intro q hq
      exact fs.file_removeAll_other hq
    · intro q hq
      exact (mem_dirs_removeAll.mp hq).1
    · intro e he2
      exact List.mem_of_mem_filter he2
  · refine ⟨fs, ?_, fun q _ => rfl, ?_, fun q hq => hq, fun e he2 => he2⟩
    · unfold tolerantRemove fsRemoveDirAll
      rw [hrf, if_neg he]
      simp
    · simpa using he

end Snapshot

namespace Snapshot

set_option maxHeartbeats 1000000

theorem snoc_ne (p : Path) {a b : Seg} (h : a ≠ b) :
    p ++ [a] ≠ p ++ [b] := by
  intro hc
  apply h
  have h2 := app_cancel hc
  injection h2

/-- C3: after a successful `Service::finalize_restoration` over a
completed restoration, every file of `restoration/temp/` has been moved
into `snapshot/current/` preserving basenames (`MANIFEST` being the one
written by the restoration's own `finalize`), the reader has been
reopened over `snapshot/current/`, the status is `Inactive`, and from
then on `manifest()` returns the restored manifest while `chunk(h)`
returns `Some` for every hash in it. -/
theorem c3_finalize_restoration_success (env : Env) (fs : FS) (svc : Service) (r : Restoration)
    (hnf : noFault env)
    (hres : svc.restoration = some r)
    (hsl : r.state_chunks_left = []) (hbl : r.block_chunks_left = [])
    (hroot : env.stateRoot r.state.fed = r.final_state_root)
    (hmiss : env.checkMissingErr r.state.fed = none)
    (hwd : r.writer.dir = svc.temp_recovery_dir)
    (hic : Incomp svc.client_db svc.root_dir)
    (hcl : fs.existsNode svc.client_db = true)
    (hour : fs.existsNode svc.restoration_db = true)
    (hchunks : ∀ h2 ∈ r.manifest.state_hashes ++ r.manifest.block_hashes,
      ∃ b, fs.file (svc.temp_recovery_dir ++ [Seg.hashSeg h2]) =
        some (.raw b))
    (hshape : ∀ e ∈ fs.files, pre svc.temp_recovery_dir e.1 = true →
      ∃ n, e.1 = svc.temp_recovery_dir ++ [n])
    (hdirshape : ∀ d ∈ fs.dirs, pre svc.temp_recovery_dir d = true →
      d = svc.temp_recovery_dir) :
    ∃ svc2 fs2,
      Service.finalize_restoration env fs svc = (svc2, fs2, .ok ()) ∧
      svc2.status = .Inactive ∧
      svc2.reader = some { dir := svc.snapshot_dir, manifest := r.manifest } ∧
      Service.manifest svc2 = some r.manifest ∧
      (∀ h2 ∈ r.manifest.state_hashes ++ r.manifest.block_hashes,
        ∃ b, Service.chunk svc2 fs2 h2 = some b) ∧
      (∀ n d, n ≠ Seg.manifestFile →
        fs.file (svc.temp_recovery_dir ++ [n]) = some d →
        fs2.file (svc.snapshot_dir ++ [n]) = some d) ∧
      fs2.file (svc.snapshot_dir ++ [Seg.manifestFile]) =
        some (.manifest r.manifest) := by
  obtain ⟨res0, cdb, dbp, st0, rd0, sc0, bc0⟩ := svc
  simp only [Service.temp_recovery_dir, Service.restoration_dir,
    Service.root_dir, Service.snapshot_dir, Service.restoration_db,
    Service.backup_db] at hwd hic hcl hour hchunks hshape hdirshape ⊢
  dsimp only at hres hwd hic hcl hour hchunks hshape hdirshape ⊢
  subst hres
  have hdone : r.is_done = true := by
    simp [Restoration.is_done, hsl, hbl]
  have hfin : Restoration.finalize env fs r =
      ([.rootCheck, .checkMissing, .glueChunks, .writerFinish],
        fs.write ((((dbp ++ [Seg.snapshot]) ++ [Seg.restorationSeg]) ++
          [Seg.temp]) ++ [Seg.manifestFile]) (.manifest r.manifest),
        .ok ()) := by
    unfold Restoration.finalize LooseWriter.finish
    rw [hdone, hwd]
    simp [hroot, hmiss, hnf.2.2.2]
  -- disjointness facts
  have hicr : Incomp cdb (dbp ++ [Seg.snapshot] ++ [Seg.restorationSeg]) := incomp_ext hic [Seg.restorationSeg]
  have hict : Incomp cdb (dbp ++ [Seg.snapshot] ++ [Seg.restorationSeg] ++ [Seg.temp]) := incomp_ext hicr [Seg.temp]
  have hics : Incomp cdb (dbp ++ [Seg.snapshot] ++ [Seg.current]) := incomp_ext hic [Seg.current]
  have htb : Incomp (dbp ++ [Seg.snapshot] ++ [Seg.restorationSeg] ++ [Seg.temp]) (dbp ++ [Seg.snapshot] ++ [Seg.restorationSeg] ++ [Seg.backupDb]) :=
    incomp_single (dbp ++ [Seg.snapshot] ++ [Seg.restorationSeg]) (by decide)
  have hto : Incomp (dbp ++ [Seg.snapshot] ++ [Seg.restorationSeg] ++ [Seg.temp]) (dbp ++ [Seg.snapshot] ++ [Seg.restorationSeg] ++ [Seg.dbSeg]) :=
    incomp_single (dbp ++ [Seg.snapshot] ++ [Seg.restorationSeg]) (by decide)
  have hrs : Incomp (dbp ++ [Seg.snapshot] ++ [Seg.restorationSeg]) (dbp ++ [Seg.snapshot] ++ [Seg.current]) :=
    incomp_single (dbp ++ [Seg.snapshot]) (by decide)
  have hts : Incomp (dbp ++ [Seg.snapshot] ++ [Seg.restorationSeg] ++ [Seg.temp]) (dbp ++ [Seg.snapshot] ++ [Seg.current]) :=
    (incomp_ext hrs.symm [Seg.temp]).symm
  -- the replace step
  have hclW : (fs.write (dbp ++ [Seg.snapshot] ++ [Seg.restorationSeg] ++ [Seg.temp] ++ [Seg.manifestFile]) (FileData.manifest r.manifest)).existsNode cdb = true := by
    rw [FS.existsNode_write]
    simp [hcl]
  have hourW : (fs.write (dbp ++ [Seg.snapshot] ++ [Seg.restorationSeg] ++ [Seg.temp] ++ [Seg.manifestFile]) (FileData.manifest r.manifest)).existsNode (dbp ++ [Seg.snapshot] ++ [Seg.restorationSeg] ++ [Seg.dbSeg]) = true := by
    rw [FS.existsNode_write, hour, Bool.or_true]
  have hrep := replace_client_db_ok env (fs.write (dbp ++ [Seg.snapshot] ++ [Seg.restorationSeg] ++ [Seg.temp] ++ [Seg.manifestFile]) (FileData.manifest r.manifest))
    ⟨none, cdb, dbp, st0, rd0, 0, 0⟩ hnf hic hclW hourW
  simp only [Service.backup_db, Service.restoration_db,
    Service.restoration_dir, Service.root_dir] at hrep
  -- temp-subtree preservation through the replace step
  have hPres : ∀ q, pre (dbp ++ [Seg.snapshot] ++ [Seg.restorationSeg] ++ [Seg.temp]) q = true →
      ((((tryRemoveAll env (dbp ++ [Seg.snapshot] ++ [Seg.restorationSeg] ++ [Seg.backupDb]) (fs.write (dbp ++ [Seg.snapshot] ++ [Seg.restorationSeg] ++ [Seg.temp] ++ [Seg.manifestFile]) (FileData.manifest r.manifest))).renamePure cdb (dbp ++ [Seg.snapshot] ++ [Seg.restorationSeg] ++ [Seg.backupDb])).renamePure (dbp ++ [Seg.snapshot] ++ [Seg.restorationSeg] ++ [Seg.dbSeg]) cdb).removeAll (dbp ++ [Seg.snapshot] ++ [Seg.restorationSeg] ++ [Seg.backupDb])).file q = (fs.write (dbp ++ [Seg.snapshot] ++ [Seg.restorationSeg] ++ [Seg.temp] ++ [Seg.manifestFile]) (FileData.manifest r.manifest)).file q := by
    intro q hq
    have h1 : ¬ pre (dbp ++ [Seg.snapshot] ++ [Seg.restorationSeg] ++ [Seg.backupDb]) q = true := fun hc =>
      not_pre_of_incomp_prel htb.symm hq hc
    have h2 : ¬ pre cdb q = true := fun hc =>
      not_pre_of_incomp_prel hict hq hc
    have h3 : ¬ pre (dbp ++ [Seg.snapshot] ++ [Seg.restorationSeg] ++ [Seg.dbSeg]) q = true := fun hc =>
      not_pre_of_incomp_prel hto.symm hq hc
    rw [FS.file_removeAll_other _ h1, FS.file_rename_other _ h3 h2,
      FS.file_rename_other _ h2 h1, file_tryRemoveAll_other env _ _ h1]
  have hdirsR : ∀ dd ∈ ((((tryRemoveAll env (dbp ++ [Seg.snapshot] ++ [Seg.restorationSeg] ++ [Seg.backupDb]) (fs.write (dbp ++ [Seg.snapshot] ++ [Seg.restorationSeg] ++ [Seg.temp] ++ [Seg.manifestFile]) (FileData.manifest r.manifest))).renamePure cdb (dbp ++ [Seg.snapshot] ++ [Seg.restorationSeg] ++ [Seg.backupDb])).renamePure (dbp ++ [Seg.snapshot] ++ [Seg.restorationSeg] ++ [Seg.dbSeg]) cdb).removeAll (dbp ++ [Seg.snapshot] ++ [Seg.restorationSeg] ++ [Seg.backupDb])).dirs, pre (dbp ++ [Seg.snapshot] ++ [Seg.restorationSeg] ++ [Seg.temp]) dd = true →
      dd ∈ fs.dirs := by
    intro dd hdd hu
    have s1 := (mem_dirs_removeAll.mp hdd).1
    have s2 := mem_renameDirs_under hict.symm _ dd s1 hu
    have s3 := mem_renameDirs_under htb _ dd s2 hu
    have s4 := mem_dirs_tryRemoveAll s3
    exact s4
  have hfilesR : ∀ e ∈ ((((tryRemoveAll env (dbp ++ [Seg.snapshot] ++ [Seg.restorationSeg] ++ [Seg.backupDb]) (fs.write (dbp ++ [Seg.snapshot] ++ [Seg.restorationSeg] ++ [Seg.temp] ++ [Seg.manifestFile]) (FileData.manifest r.manifest))).renamePure cdb (dbp ++ [Seg.snapshot] ++ [Seg.restorationSeg] ++ [Seg.backupDb])).renamePure (dbp ++ [Seg.snapshot] ++ [Seg.restorationSeg] ++ [Seg.dbSeg]) cdb).removeAll (dbp ++ [Seg.snapshot] ++ [Seg.restorationSeg] ++ [Seg.backupDb])).files, pre (dbp ++ [Seg.snapshot] ++ [Seg.restorationSeg] ++ [Seg.temp]) e.1 = true →
      ∃ n, e.1 = (dbp ++ [Seg.snapshot] ++ [Seg.restorationSeg] ++ [Seg.temp]) ++ [n] := by
    intro e he hu
    have s1 := List.mem_of_mem_filter he
    have s2 := mem_renameEntries_under hict.symm _ e s1 hu
    have s3 := mem_renameEntries_under htb _ e s2 hu
    have s4 := mem_files_tryRemoveAll s3
    rcases List.mem_cons.mp s4 with h1 | h1
    · exact ⟨Seg.manifestFile, by rw [h1]⟩
    · exact hshape e (List.mem_of_mem_filter h1) hu
  -- remove old snapshot dir (NotFound tolerated)
  obtain ⟨fsC, hE, hCfile, hCnosnap, hCdirs, hCfiles⟩ :=
    tolerantRemove_facts env hnf (dbp ++ [Seg.snapshot] ++ [Seg.current]) ((((tryRemoveAll env (dbp ++ [Seg.snapshot] ++ [Seg.restorationSeg] ++ [Seg.backupDb]) (fs.write (dbp ++ [Seg.snapshot] ++ [Seg.restorationSeg] ++ [Seg.temp] ++ [Seg.manifestFile]) (FileData.manifest r.manifest))).renamePure cdb (dbp ++ [Seg.snapshot] ++ [Seg.restorationSeg] ++ [Seg.backupDb])).renamePure (dbp ++ [Seg.snapshot] ++ [Seg.restorationSeg] ++ [Seg.dbSeg]) cdb).removeAll (dbp ++ [Seg.snapshot] ++ [Seg.restorationSeg] ++ [Seg.backupDb]))
  -- the written MANIFEST survives to fsC
  have hTmC : fsC.file (dbp ++ [Seg.snapshot] ++ [Seg.restorationSeg] ++ [Seg.temp] ++ [Seg.manifestFile]) = some (.manifest r.manifest) := by
    have h1 : ¬ pre (dbp ++ [Seg.snapshot] ++ [Seg.current]) (dbp ++ [Seg.snapshot] ++ [Seg.restorationSeg] ++ [Seg.temp] ++ [Seg.manifestFile]) = true := fun hc =>
      not_pre_of_incomp_prel hts.symm (pre_app (dbp ++ [Seg.snapshot] ++ [Seg.restorationSeg] ++ [Seg.temp]) [Seg.manifestFile]) hc
    rw [hCfile _ h1, hPres _ (pre_app (dbp ++ [Seg.snapshot] ++ [Seg.restorationSeg] ++ [Seg.temp]) [Seg.manifestFile]),
      FS.file_write_self]
  have hexROOT : fsC.existsNode (dbp ++ [Seg.snapshot]) = true := by
    refine FS.existsNode_of_file hTmC ?_
    rw [pre_iff]
    exact ⟨[Seg.restorationSeg, Seg.temp, Seg.manifestFile], by simp⟩
  have hCD : fsCreateDir env (dbp ++ [Seg.snapshot] ++ [Seg.current]) fsC = .ok ({ dirs := (dbp ++ [Seg.snapshot] ++ [Seg.current]) :: fsC.dirs, files := fsC.files }) := by
    unfold fsCreateDir
    rw [hnf.2.2.1, hCnosnap, List.dropLast_concat, hexROOT]
    simp
  -- reading the temp dir
  have hTmD : FS.file ({ dirs := (dbp ++ [Seg.snapshot] ++ [Seg.current]) :: fsC.dirs, files := fsC.files }) (dbp ++ [Seg.snapshot] ++ [Seg.restorationSeg] ++ [Seg.temp] ++ [Seg.manifestFile]) = some (.manifest r.manifest) :=
    hTmC
  have hexTempD : FS.existsNode ({ dirs := (dbp ++ [Seg.snapshot] ++ [Seg.current]) :: fsC.dirs, files := fsC.files }) (dbp ++ [Seg.snapshot] ++ [Seg.restorationSeg] ++ [Seg.temp]) = true :=
    FS.existsNode_of_file hTmD (pre_app (dbp ++ [Seg.snapshot] ++ [Seg.restorationSeg] ++ [Seg.temp]) [Seg.manifestFile])
  have hRD : fsReadDir ({ dirs := (dbp ++ [Seg.snapshot] ++ [Seg.current]) :: fsC.dirs, files := fsC.files }) (dbp ++ [Seg.snapshot] ++ [Seg.restorationSeg] ++ [Seg.temp]) =
      .ok (FS.children ({ dirs := (dbp ++ [Seg.snapshot] ++ [Seg.current]) :: fsC.dirs, files := fsC.files }) (dbp ++ [Seg.snapshot] ++ [Seg.restorationSeg] ++ [Seg.temp])) := by
    unfold fsReadDir
    rw [hexTempD]
    simp
  -- children facts
  have hshapeD : ∀ e ∈ FS.files ({ dirs := (dbp ++ [Seg.snapshot] ++ [Seg.current]) :: fsC.dirs, files := fsC.files }), pre (dbp ++ [Seg.snapshot] ++ [Seg.restorationSeg] ++ [Seg.temp]) e.1 = true →
      ∃ n, e.1 = (dbp ++ [Seg.snapshot] ++ [Seg.restorationSeg] ++ [Seg.temp]) ++ [n] :=
    fun e he hu => hfilesR e (hCfiles e he) hu
  have hdirsD : ∀ dd ∈ FS.dirs ({ dirs := (dbp ++ [Seg.snapshot] ++ [Seg.current]) :: fsC.dirs, files := fsC.files }), pre (dbp ++ [Seg.snapshot] ++ [Seg.restorationSeg] ++ [Seg.temp]) dd = true →
      ¬ (dbp ++ [Seg.snapshot] ++ [Seg.restorationSeg] ++ [Seg.temp] : Path).length < dd.length := by
    intro dd hdd hu
    rcases List.mem_cons.mp hdd with h1 | h1
    · rw [h1] at hu
      exact absurd hu hts.1
    · have h2 := hdirshape dd (hdirsR dd (hCdirs dd h1) hu) hu
      rw [h2]
      exact lt_irrefl _
  have hkids := children_are_files hshapeD hdirsD
  have hknd : (FS.children ({ dirs := (dbp ++ [Seg.snapshot] ++ [Seg.current]) :: fsC.dirs, files := fsC.files }) (dbp ++ [Seg.snapshot] ++ [Seg.restorationSeg] ++ [Seg.temp])).Nodup := by
    unfold FS.children
    exact List.nodup_dedup _
  obtain ⟨fsE, hloop, hmoved, hother⟩ :=
    moveLoop_ok env hnf (dbp ++ [Seg.snapshot] ++ [Seg.current]) (dbp ++ [Seg.snapshot] ++ [Seg.restorationSeg] ++ [Seg.temp]) hts
      (FS.children ({ dirs := (dbp ++ [Seg.snapshot] ++ [Seg.current]) :: fsC.dirs, files := fsC.files }) (dbp ++ [Seg.snapshot] ++ [Seg.restorationSeg] ++ [Seg.temp])) ({ dirs := (dbp ++ [Seg.snapshot] ++ [Seg.current]) :: fsC.dirs, files := fsC.files }) hknd
      (fun c hc => children_sub hc) hkids
  -- values at the snapshot dir after the loop
  have hSman : fsE.file ((dbp ++ [Seg.snapshot] ++ [Seg.current]) ++ [Seg.manifestFile]) =
      some (.manifest r.manifest) := by
    rw [hmoved Seg.manifestFile (mem_children_of_file hTmD)]
    exact hTmD
  have hFman : (tryRemoveAll env (dbp ++ [Seg.snapshot] ++ [Seg.restorationSeg]) fsE).file
      ((dbp ++ [Seg.snapshot] ++ [Seg.current]) ++ [Seg.manifestFile]) = some (.manifest r.manifest) := by
    rw [file_tryRemoveAll_other env _ _ (fun hc =>
      not_pre_of_incomp_prel hrs (pre_app (dbp ++ [Seg.snapshot] ++ [Seg.current]) [Seg.manifestFile]) hc)]
    exact hSman
  have hreader : LooseReader.new (tryRemoveAll env (dbp ++ [Seg.snapshot] ++ [Seg.restorationSeg]) fsE) (dbp ++ [Seg.snapshot] ++ [Seg.current]) =
      .ok ⟨(dbp ++ [Seg.snapshot] ++ [Seg.current]), r.manifest⟩ := by
    unfold LooseReader.new
    rw [hFman]
  -- a general transfer of temp files to the snapshot dir
  have hcarry : ∀ n d, n ≠ Seg.manifestFile →
      fs.file ((dbp ++ [Seg.snapshot] ++ [Seg.restorationSeg] ++ [Seg.temp]) ++ [n]) = some d →
      (tryRemoveAll env (dbp ++ [Seg.snapshot] ++ [Seg.restorationSeg]) fsE).file ((dbp ++ [Seg.snapshot] ++ [Seg.current]) ++ [n]) = some d := by
    intro n d hn hfile
    have hW : (fs.write (dbp ++ [Seg.snapshot] ++ [Seg.restorationSeg] ++ [Seg.temp] ++ [Seg.manifestFile]) (FileData.manifest r.manifest)).file ((dbp ++ [Seg.snapshot] ++ [Seg.restorationSeg] ++ [Seg.temp]) ++ [n]) = some d := by
      rw [FS.file_write_other _ _ (snoc_ne (dbp ++ [Seg.snapshot] ++ [Seg.restorationSeg] ++ [Seg.temp]) hn)]
      exact hfile
    have hR : ((((tryRemoveAll env (dbp ++ [Seg.snapshot] ++ [Seg.restorationSeg] ++ [Seg.backupDb]) (fs.write (dbp ++ [Seg.snapshot] ++ [Seg.restorationSeg] ++ [Seg.temp] ++ [Seg.manifestFile]) (FileData.manifest r.manifest))).renamePure cdb (dbp ++ [Seg.snapshot] ++ [Seg.restorationSeg] ++ [Seg.backupDb])).renamePure (dbp ++ [Seg.snapshot] ++ [Seg.restorationSeg] ++ [Seg.dbSeg]) cdb).removeAll (dbp ++ [Seg.snapshot] ++ [Seg.restorationSeg] ++ [Seg.backupDb])).file ((dbp ++ [Seg.snapshot] ++ [Seg.restorationSeg] ++ [Seg.temp]) ++ [n]) = some d := by
      rw [hPres _ (pre_app (dbp ++ [Seg.snapshot] ++ [Seg.restorationSeg] ++ [Seg.temp]) [n])]
      exact hW
    have hC2 : fsC.file ((dbp ++ [Seg.snapshot] ++ [Seg.restorationSeg] ++ [Seg.temp]) ++ [n]) = some d := by
      rw [hCfile _ (fun hc =>
        not_pre_of_incomp_prel hts.symm (pre_app (dbp ++ [Seg.snapshot] ++ [Seg.restorationSeg] ++ [Seg.temp]) [n]) hc)]
      exact hR
    have hD2 : FS.file ({ dirs := (dbp ++ [Seg.snapshot] ++ [Seg.current]) :: fsC.dirs, files := fsC.files }) ((dbp ++ [Seg.snapshot] ++ [Seg.restorationSeg] ++ [Seg.temp]) ++ [n]) = some d := hC2
    have hE2 : fsE.file ((dbp ++ [Seg.snapshot] ++ [Seg.current]) ++ [n]) = some d := by
      rw [hmoved n (mem_children_of_file hD2)]
      exact hD2
    rw [file_tryRemoveAll_other env _ _ (fun hc =>
      not_pre_of_incomp_prel hrs (pre_app (dbp ++ [Seg.snapshot] ++ [Seg.current]) [n]) hc)]
    exact hE2
  -- assemble
  unfold Service.finalize_restoration
  dsimp only
  rw [hfin]
  dsimp only
  rw [hrep]
  dsimp only
  simp only [Service.snapshot_dir, Service.restoration_dir,
    Service.root_dir, Service.temp_recovery_dir]
  rw [hE]
  dsimp only
  rw [hCD]
  dsimp only
  rw [hRD]
  dsimp only
  rw [hloop]
  dsimp only
  rw [hreader]
  dsimp only
  refine ⟨_, _, rfl, rfl, rfl, rfl, ?_, ?_, ?_⟩
  · intro h2 hmem
    obtain ⟨b, hb⟩ := hchunks h2 hmem
    refine ⟨b, ?_⟩
    have hcf := hcarry (Seg.hashSeg h2) (.raw b)
      (fun hc => Seg.noConfusion hc) hb
    have hch : LooseReader.chunk ⟨(dbp ++ [Seg.snapshot] ++ [Seg.current]), r.manifest⟩
        (tryRemoveAll env (dbp ++ [Seg.snapshot] ++ [Seg.restorationSeg]) fsE) h2 = some b := by
      unfold LooseReader.chunk
      dsimp only
      rw [hcf]
    exact hch
  · intro n d hn hfile
    exact hcarry n d hn hfile
  · exact hFman

end Snapshot

namespace Snapshot

/-- Manifest for the C3 witness: one state chunk, one block chunk. -/
def mW3 : ManifestData :=
  { state_hashes := [5], block_hashes := [9], state_root := 0,
    block_number := 3 }

/-- A completed restoration over `mW3` whose writer points at the
temp recovery dir. -/
def rW3 : Restoration := {
  manifest := mW3, state_chunks_left := [], block_chunks_left := [],
  state := { fed := [] }, blocks := { fed := [] },
  writer := { dir := [Seg.other 0, Seg.snapshot, Seg.restorationSeg,
    Seg.temp] },
  snappy_buffer := [], final_state_root := 0 }

def svcW3 : Service := {
  restoration := some rW3,
  client_db := [Seg.other 0, Seg.other 1, Seg.dbSeg],
  db_path := [Seg.other 0], status := .Ongoing, reader := none,
  state_chunks := 1, block_chunks := 1 }

/-- Filesystem for the C3 witness: client DB and staging DB exist, and
the temp dir holds the two chunk files. -/
def fsW3 : FS := {
  dirs := [[Seg.other 0, Seg.other 1, Seg.dbSeg],
    [Seg.other 0, Seg.snapshot, Seg.restorationSeg, Seg.dbSeg]],
  files := [
    ([Seg.other 0, Seg.snapshot, Seg.restorationSeg, Seg.temp,
      Seg.hashSeg 5], .raw [11]),
    ([Seg.other 0, Seg.snapshot, Seg.restorationSeg, Seg.temp,
      Seg.hashSeg 9], .raw [22])] }

theorem c3_witness :
    ∃ svc2 fs2,
      Service.finalize_restoration envId fsW3 svcW3 = (svc2, fs2, .ok ()) ∧
      svc2.status = .Inactive ∧
      svc2.reader =
        some { dir := svcW3.snapshot_dir, manifest := rW3.manifest } ∧
      Service.manifest svc2 = some rW3.manifest ∧
      (∀ h2 ∈ rW3.manifest.state_hashes ++ rW3.manifest.block_hashes,
        ∃ b, Service.chunk svc2 fs2 h2 = some b) ∧
      (∀ n d, n ≠ Seg.manifestFile →
        fsW3.file (svcW3.temp_recovery_dir ++ [n]) = some d →
        fs2.file (svcW3.snapshot_dir ++ [n]) = some d) ∧
      fs2.file (svcW3.snapshot_dir ++ [Seg.manifestFile]) =
        some (.manifest rW3.manifest) :=
  c3_finalize_restoration_success envId fsW3 svcW3 rW3
    ⟨fun _ _ => rfl, fun _ => rfl, fun _ => rfl, fun _ => rfl⟩
    rfl rfl rfl rfl rfl rfl (by decide) rfl rfl
    (by
      intro h2 hm
      simp [rW3, mW3] at hm
      rcases hm with rfl | rfl
      · exact ⟨[11], rfl⟩
      · exact ⟨[22], rfl⟩)
    (by
      intro e he hu
      rcases List.mem_cons.mp he with h1 | h1
      · exact ⟨Seg.hashSeg 5, by rw [h1]; rfl⟩
      · rcases List.mem_cons.mp h1 with h2 | h2
        · exact ⟨Seg.hashSeg 9, by rw [h2]; rfl⟩
        · cases h2)
    (by
      intro d hd hu
      rcases List.mem_cons.mp hd with h1 | h1
      · rw [h1] at hu
        exact absurd hu (by decide)
      · rcases List.mem_cons.mp h1 with h2 | h2
        · rw [h2] at hu
          exact absurd hu (by decide)
        · cases h2)

end Snapshot
